import Mathlib

/-!
Shallow embedding of the Interview Assistant backend
(`backend/app.py` and `configs/__init__.py`) together with proofs about the
specified behaviour of its sanitizer, evaluation-payload validator,
configuration manager and conversation session manager.

Python values flowing through the validator are modelled by the `Json`
inductive below; Python `dict`s are modelled as association lists with
insert-or-replace update (`alistSet`), preserving insertion order exactly as
CPython dicts do.  Machine strings are Lean `String`s; the Python string
helpers used by the source (`str.strip`, `str.lower`, regex character
classes) are modelled for the ASCII range, which is the range exercised by
the data and tests of the repository.
-/

/-- Python `str.isspace` characters in the ASCII range; this is the set
matched by `\s` in the regular expressions of the source and stripped by
`str.strip()`. -/
def isPySpace (c : Char) : Bool :=
  c = ' ' || c = '\t' || c = '\n' || c = '\r' || c = '\x0b' || c = '\x0c'

/-- Python `str.strip()` on a list of characters: drop leading and trailing
whitespace. -/
def pyStripList (cs : List Char) : List Char :=
  ((cs.dropWhile isPySpace).reverse.dropWhile isPySpace).reverse

/-- Python `str.strip()`. -/
def pyStrip (s : String) : String :=
  String.mk (pyStripList s.data)

/-- Python `str.lower()`, modelled for the ASCII range. -/
def pyLower (s : String) : String :=
  String.mk (s.data.map Char.toLower)

/-- Association-list lookup: the value stored for a key in a Python dict. -/
def alistGet {α β : Type} [DecidableEq α] : List (α × β) → α → Option β
  | [], _ => none
  | (k, v) :: rest, key => if k = key then some v else alistGet rest key

/-- Association-list update with Python-dict semantics: replace the value in
place if the key exists (preserving position), otherwise append. -/
def alistSet {α β : Type} [DecidableEq α] : List (α × β) → α → β → List (α × β)
  | [], key, v => [(key, v)]
  | (k, w) :: rest, key, v =>
      if k = key then (k, v) :: rest else (k, w) :: alistSet rest key v

theorem alistGet_alistSet_self {α β : Type} [DecidableEq α]
    (l : List (α × β)) (k : α) (v : β) :
    alistGet (alistSet l k v) k = some v := by
  induction l with
  | nil => simp [alistGet, alistSet]
  | cons hd tl ih =>
      obtain ⟨k', w⟩ := hd
      by_cases h : k' = k
      · simp [alistGet, alistSet, h]
      · simp [alistGet, alistSet, h, ih]

theorem alistGet_alistSet_ne {α β : Type} [DecidableEq α]
    (l : List (α × β)) (k k' : α) (v : β) (h : k' ≠ k) :
    alistGet (alistSet l k v) k' = alistGet l k' := by
  have h' : ¬ k = k' := fun hh => h hh.symm
  induction l with
  | nil => simp [alistGet, alistSet, h']
  | cons hd tl ih =>
      obtain ⟨k₀, w⟩ := hd
      by_cases h0 : k₀ = k
      · subst h0
        simp [alistGet, alistSet, h']
      · simp only [alistSet, if_neg h0]
        by_cases h1 : k₀ = k'
        · simp [alistGet, h1]
        · simp [alistGet, h1, ih]

/-- JSON-like Python values as manipulated by the backend: `None`, booleans,
numbers, strings, lists and dicts (dicts as ordered association lists). -/
inductive Json where
  | null : Json
  | bool (b : Bool) : Json
  | num (n : Int) : Json
  | str (s : String) : Json
  | arr (elems : List Json) : Json
  | obj (fields : List (String × Json)) : Json
deriving Repr

/-- Python truthiness (`if value:`) for the modelled values: `None`, `False`,
`0`, the empty string, the empty list and the empty dict are falsy. -/
def Json.truthy : Json → Bool
  | .null => false
  | .bool b => b
  | .num n => n != 0
  | .str s => !s.isEmpty
  | .arr l => !l.isEmpty
  | .obj l => !l.isEmpty

/-- Whether a value is Python `None` (JSON `null`). -/
def Json.isNull : Json → Bool
  | .null => true
  | _ => false

/-- Python `isinstance(v, dict)`. -/
def Json.isObj : Json → Bool
  | .obj _ => true
  | _ => false

/-- Python `isinstance(v, list)`. -/
def Json.isArr : Json → Bool
  | .arr _ => true
  | _ => false

/-- Python `isinstance(v, str)`. -/
def Json.isStr : Json → Bool
  | .str _ => true
  | _ => false

/-- Python `isinstance(v, (int, float))`; note that in Python `bool` is a
subclass of `int`, so booleans satisfy this check. -/
def Json.isIntFloat : Json → Bool
  | .num _ => true
  | .bool _ => true
  | _ => false

/-- Python `isinstance(entry, str) and entry.strip()`: the filter kept by the
validator for `strengths`, `improvements` and the example lists. -/
def isNonBlankStr : Json → Bool
  | .str s => !(pyStrip s).isEmpty
  | _ => false

/-- Filter predicate for `question_breakdown`: `isinstance(item, dict)`. -/
def isDictEntry : Json → Bool
  | .obj _ => true
  | _ => false

/-!
Part 2: Response sanitizer (`backend/app.py`, `_sanitize_evaluation_text`)
-/

/-- Character class `[a-z0-9_+\-]` of `FENCE_LABEL_PATTERN`, under
`re.IGNORECASE` (so uppercase letters match as well). -/
def isLabelChar (c : Char) : Bool :=
  ('a' ≤ c && c ≤ 'z') || ('A' ≤ c && c ≤ 'Z') || ('0' ≤ c && c ≤ '9') ||
    c = '_' || c = '+' || c = '-'

/-- Regex pass `re.sub(rf"^{fence}[a-z0-9_+\-]*\s*", "", s, count=1)`: if the text starts
with the fence, remove it together with the (greedy) run of label characters
and the (greedy) run of whitespace that follows. -/
def stripPrefixFence (fence : List Char) (cs : List Char) : List Char :=
  if fence.isPrefixOf cs then
    ((cs.drop fence.length).dropWhile isLabelChar).dropWhile isPySpace
  else cs

/-- Regex pass `re.sub(rf"\s*{fence}$", "", s, count=1)`: remove one trailing fence and
the whitespace run immediately before it.  In Python `$` also matches just
before one final newline, hence the second branch (the sanitizer itself only
reaches this with no trailing whitespace, but the regex is modelled fully). -/
def stripSuffixFence (fence : List Char) (cs : List Char) : List Char :=
  if fence.isSuffixOf cs then
    ((cs.reverse.drop fence.length).dropWhile isPySpace).reverse
  else if (fence ++ ['\n']).isSuffixOf cs then
    ('\n' :: ((cs.reverse.drop (fence.length + 1)).dropWhile isPySpace)).reverse
  else cs

/-- The two fence styles tried by the sanitizer, in source order. -/
def backtickFence : List Char := "```".data

/-- The tilde fence style. -/
def tildeFence : List Char := "~~~".data

/-- Core of `_sanitize_evaluation_text` on character lists: strip whitespace,
return early when empty, then for each fence style in order remove at most
one leading and one trailing fence, and finally strip whitespace again. -/
def sanitizeChars (text : List Char) : List Char :=
  let sanitized := pyStripList text
  if sanitized.isEmpty then sanitized
  else
    let sanitized := stripSuffixFence backtickFence
      (stripPrefixFence backtickFence sanitized)
    let sanitized := stripSuffixFence tildeFence
      (stripPrefixFence tildeFence sanitized)
    pyStripList sanitized

/-- Embedding of `_sanitize_evaluation_text` from `backend/app.py` (on string inputs; the
Python function returns non-string inputs unchanged, a branch that is outside
this string-typed embedding). -/
def _sanitize_evaluation_text (s : String) : String :=
  String.mk (sanitizeChars s.data)

/-!
Part 3: Evaluation payload validator (`backend/app.py`, `validate_evaluation`)

The validator raises `ValueError` in the source; errors are modelled as
`Except.error` carrying the message text of the source (with `\x27` for the
ASCII apostrophe).
-/

/-- The `mode` step of `validate_evaluation`:
`if "mode" in result and result["mode"]:` followed by the string check and
in-place lower-casing. -/
def validateMode (r : List (String × Json)) :
    Except String (List (String × Json)) :=
  match alistGet r "mode" with
  | some v =>
      if v.truthy then
        match v with
        | .str s => .ok (alistSet r "mode" (.str (pyLower s)))
        | _ => .error "Evaluation mode must be a string"
      else .ok r
  | none => .ok r

/-- The local `_ensure_dict` helper: absent or `None` values default to an
empty dict (stored back into the result); any other non-dict value raises. -/
def ensureDict (r : List (String × Json)) (key : String) :
    Except String (List (String × Json)) :=
  match alistGet r key with
  | none => .ok (alistSet r key (.obj []))
  | some .null => .ok (alistSet r key (.obj []))
  | some (.obj _) => .ok r
  | some _ => .error s!"Field \x27{key}\x27 must be an object"

/-- The local `_ensure_list` helper: absent or `None` values default to an
empty list (stored back); any other non-list value raises.  Returns the
updated result together with the list value, which the caller then filters. -/
def ensureList (r : List (String × Json)) (key : String) :
    Except String (List (String × Json) × List Json) :=
  match alistGet r key with
  | none => .ok (alistSet r key (.arr []), [])
  | some .null => .ok (alistSet r key (.arr []), [])
  | some (.arr l) => .ok (r, l)
  | some _ => .error s!"Field \x27{key}\x27 must be a list"

/-- The `specific_examples` step: absent/`None` defaults to an empty dict,
other non-dicts raise; the `good`/`needs_work` sub-fields are read with
`examples.get(k) or []` (so any falsy value is replaced by the empty list),
must then be lists, and are filtered to non-blank strings; finally both
filtered lists are stored and the whole dict is written back. -/
def validateExamples (r : List (String × Json)) :
    Except String (List (String × Json)) := do
  let ex ← (match alistGet r "specific_examples" with
    | none => Except.ok ([] : List (String × Json))
    | some .null => Except.ok []
    | some (.obj e) => Except.ok e
    | some _ => Except.error "Field \x27specific_examples\x27 must be an object")
  let good := match alistGet ex "good" with
    | some v => if v.truthy then v else .arr []
    | none => .arr []
  let needsWork := match alistGet ex "needs_work" with
    | some v => if v.truthy then v else .arr []
    | none => .arr []
  match good, needsWork with
  | .arr goodList, .arr needsWorkList =>
      let ex := alistSet ex "good" (.arr (goodList.filter isNonBlankStr))
      let ex := alistSet ex "needs_work" (.arr (needsWorkList.filter isNonBlankStr))
      .ok (alistSet r "specific_examples" (.obj ex))
  | _, _ => .error "Example lists must be arrays"

/-- The `detailed_feedback` step: if present and not `None`, it must be a
string; the result is not modified. -/
def validateFeedback (r : List (String × Json)) :
    Except String (List (String × Json)) :=
  match alistGet r "detailed_feedback" with
  | none => .ok r
  | some .null => .ok r
  | some (.str _) => .ok r
  | some _ => .error "Field \x27detailed_feedback\x27 must be a string if provided"

/-- Embedding of `validate_evaluation` from `backend/app.py`: validates and normalises the
evaluation payload parsed from the model reply. -/
def validate_evaluation (payload : Json) : Except String Json := do
  let .obj r := payload
    | .error "Claude evaluation payload must be a JSON object"
  let r ← validateMode r
  let r ← ensureDict r "criterion_scores"
  let r ← ensureDict r "equivalent_scores"
  let (r, question_breakdown) ← ensureList r "question_breakdown"
  let (r, strengths) ← ensureList r "strengths"
  let (r, improvements) ← ensureList r "improvements"
  let r := alistSet r "question_breakdown"
    (.arr (question_breakdown.filter isDictEntry))
  let r := alistSet r "strengths" (.arr (strengths.filter isNonBlankStr))
  let r := alistSet r "improvements" (.arr (improvements.filter isNonBlankStr))
  let r ← validateExamples r
  let r ← validateFeedback r
  return Json.obj r

/-!
Part 4: Configuration manager (`configs/__init__.py`, `ConfigManager`)

The backing JSON document of each mode is modelled as an already-parsed `Json`
value; `files` plays the role of `_config_files` plus `json.load`, and
`cache` is `_cache`.  The exceptions raised by the source are modelled by
`PyError`: each `valueError`-style constructor corresponds to one
`raise ValueError(...)` site, and `attributeError` to the `AttributeError`
Python raises when `.get` is called on a non-dict.
-/

/-- Exceptions that can escape the configuration manager. -/
inductive PyError where
  | unknownMode (mode : String) : PyError
  | attributeError : PyError
  | missingEvalMetadata (mode : String) : PyError
  | missingEvalField (mode field : String) : PyError
  | badExtraFields (mode : String) : PyError
  | noQuestions (mode : String) : PyError
  | noPrompts (mode : String) (part : Json) : PyError
  | noSystemPrompt (mode : String) : PyError
deriving Repr

/-- State of a `ConfigManager`: the discovered configuration documents (keyed by
lower-cased file stem) and the memoization cache. -/
structure ConfigManager where
  files : List (String × Json)
  cache : List (String × Json)
deriving Repr

/-- Embedding of `ConfigManager._load_config`: lower-case the key, return the cached
document if present, otherwise look the mode up, parse its file and cache
the result. -/
def _load_config (m : ConfigManager) (mode : String) :
    Except PyError (Json × ConfigManager) :=
  let key := pyLower mode
  match alistGet m.cache key with
  | some data => .ok (data, m)
  | none =>
      match alistGet m.files key with
      | none => .error (.unknownMode mode)
      | some data => .ok (data, { m with cache := alistSet m.cache key data })

/-- Python `config.get(key)` where `config` is the loaded document: raises
`AttributeError` when the document is not a dict. -/
def configGet (config : Json) (key : String) : Except PyError (Option Json) :=
  match config with
  | .obj fields => .ok (alistGet fields key)
  | _ => .error .attributeError

/-- Embedding of `ConfigManager.get_system_prompt`: the conversational persona
prompt, which must be a string. -/
def get_system_prompt (m : ConfigManager) (mode : String) :
    Except PyError (String × ConfigManager) := do
  let (config, m) ← _load_config m mode
  let prompt ← configGet config "system_prompt"
  match prompt with
  | some (.str s) => .ok (s, m)
  | _ => .error (.noSystemPrompt mode)

/-- The `required_fields` table of `ConfigManager.get_evaluation_config`,
in source (dict-insertion) order, paired with the `isinstance` check each
field must pass. -/
def requiredEvalFields : List (String × (Json → Bool)) :=
  [("system_prompt", Json.isStr),
   ("overall_scale", Json.isStr),
   ("criterion_template", Json.isStr),
   ("equivalent_template", Json.isStr),
   ("question_max", Json.isIntFloat),
   ("examples", Json.isStr),
   ("guidance", Json.isStr)]

/-- Python `int(...)` on a value already known to satisfy
`isinstance(v, (int, float))` (booleans become 0/1; other inputs are
unreachable at the call site and returned unchanged). -/
def pyIntOfNum : Json → Json
  | .num n => .num n
  | .bool b => .num (if b then 1 else 0)
  | v => v

/-- Embedding of `ConfigManager.get_evaluation_config`: check the `evaluation` sub-record
exists, collect each required field (failing when absent or of the wrong
`isinstance` type), coerce `question_max` with `int(...)`, and read the
optional `extra_fields` string (defaulting to the empty string). -/
def get_evaluation_config (m : ConfigManager) (mode : String) :
    Except PyError (List (String × Json) × ConfigManager) := do
  let (config, m) ← _load_config m mode
  let evaluationField ← configGet config "evaluation"
  let evaluation ← (match evaluationField with
    | some (.obj e) => Except.ok e
    | _ => Except.error (.missingEvalMetadata mode))
  let result ← requiredEvalFields.foldlM
    (fun acc fieldCheck =>
      let value := (alistGet evaluation fieldCheck.1).getD .null
      if fieldCheck.2 value then
        Except.ok (alistSet acc fieldCheck.1 value)
      else
        Except.error (.missingEvalField mode fieldCheck.1))
    ([] : List (String × Json))
  let result := alistSet result "question_max"
    (pyIntOfNum ((alistGet result "question_max").getD .null))
  let extra := (alistGet evaluation "extra_fields").getD (.str "")
  match extra with
  | .str s => .ok (alistSet result "extra_fields" (.str s), m)
  | _ => .error (.badExtraFields mode)

/-- Embedding of `ConfigManager.get_random_question`: pick one question group, then one
prompt inside it.  The two `random.choice` draws are modelled by the index
parameters `gsel` and `psel`, reduced modulo the respective list lengths, so
every possible pair of draws corresponds to some parameter values. -/
def get_random_question (m : ConfigManager) (mode : String)
    (gsel psel : Nat) : Except PyError ((Json × Json) × ConfigManager) := do
  let (config, m) ← _load_config m mode
  let questionSetsField ← configGet config "questions"
  let questionSets ← (match questionSetsField with
    | some (.arr l) => if l.isEmpty then Except.error (.noQuestions mode)
        else Except.ok l
    | _ => Except.error (.noQuestions mode))
  let selectedPart := questionSets.getD (gsel % questionSets.length) .null
  let partFields ← (match selectedPart with
    | .obj fields => Except.ok fields
    | _ => Except.error PyError.attributeError)
  let prompts ← (match alistGet partFields "prompts" with
    | some (.arr l) =>
        if l.isEmpty then Except.error (.noPrompts mode selectedPart)
        else Except.ok l
    | _ => Except.error (.noPrompts mode selectedPart))
  let selectedPrompt := prompts.getD (psel % prompts.length) .null
  let part := (alistGet partFields "part").getD (.str "")
  return ((part, selectedPrompt), m)

/-!
Part 5: Conversation session manager (`backend/app.py`)

The handlers below model the `/api/chat` and `/api/get-first-question`
success paths after their input validation (non-empty session id, known
mode, non-empty message, API key present).  The external collaborators are
parameters: `persona` stands for `config_manager.get_system_prompt` and
`model` for the Anthropic call (system prompt and accumulated history in,
concatenated text blocks out); the question drawn by
`config_manager.get_random_question` — verified separately above — enters
`get_first_question` as the `question_prompt`/`question_part` arguments.
-/

/-- One turn of a conversation history (`{"role": ..., "content": ...}`). -/
structure Message where
  role : String
  content : String
deriving Repr

/-- One record of the global `conversations` dict. -/
structure Conversation where
  mode : String
  system_prompt : String
  history : List Message
  pending_question : Option String
deriving Repr

/-- The global `conversations` store, keyed by `(session_id, mode)`. -/
abbrev Conversations : Type := List ((String × String) × Conversation)

/-- Constant `MAX_QA_PAIRS` from `backend/app.py`. -/
def MAX_QA_PAIRS : Nat := 5

/-- The user-turn count of a history:
`len([msg for msg in history if msg["role"] == "user"])`. -/
def userTurnCount (history : List Message) : Nat :=
  (history.filter (fun msg => msg.role = "user")).length

/-- Embedding of `_reset_conversation`: store (and return) a fresh record for the key,
snapshotting the persona prompt of the mode, with empty history and no pending
question. -/
def _reset_conversation (persona : String → String) (convs : Conversations)
    (session_id mode : String) : Conversation × Conversations :=
  let conversation : Conversation :=
    { mode := mode, system_prompt := persona mode,
      history := [], pending_question := none }
  (conversation, alistSet convs (session_id, mode) conversation)

/-- Embedding of `_get_or_create_conversation`: return the stored record, or create a
fresh one via `_reset_conversation` when the key is absent. -/
def _get_or_create_conversation (persona : String → String)
    (convs : Conversations) (session_id mode : String) :
    Conversation × Conversations :=
  match alistGet convs (session_id, mode) with
  | some conversation => (conversation, convs)
  | none => _reset_conversation persona convs session_id mode

/-- The JSON body answered by `/api/chat` (`reply` is absent in the
limit-reached short-circuit), extended with the `model_called`
instrumentation bit recording whether the external model was invoked. -/
structure ChatResult where
  reply : Option String
  history : List Message
  remaining_pairs : Nat
  limit_reached : Bool
  model_called : Bool
deriving Repr

/-- The `/api/chat` handler body after input validation: short-circuit once
the user-turn count has reached `MAX_QA_PAIRS`; otherwise pop the pending
question (labelling the turn content when one is pending and non-empty),
append the user turn, call the model, append its non-empty reply, and report
the remaining pairs. -/
def chat (persona : String → String) (model : String → List Message → String)
    (convs : Conversations) (session_id mode message : String) :
    ChatResult × Conversations :=
  let (conversation, convs) :=
    _get_or_create_conversation persona convs session_id mode
  if MAX_QA_PAIRS ≤ userTurnCount conversation.history then
    ({ reply := none, history := conversation.history, remaining_pairs := 0,
       limit_reached := true, model_called := false }, convs)
  else
    let pending := conversation.pending_question
    let conversation := { conversation with pending_question := none }
    let user_content :=
      match pending with
      | some q =>
          if q.isEmpty then message
          else s!"Interviewer question: {q}\nCandidate answer: {message}"
      | none => message
    let conversation := { conversation with
      history := conversation.history ++ [⟨"user", user_content⟩] }
    let reply_text := pyStrip (model conversation.system_prompt conversation.history)
    let conversation :=
      if reply_text.isEmpty then conversation
      else { conversation with
        history := conversation.history ++ [⟨"assistant", reply_text⟩] }
    let remaining := MAX_QA_PAIRS - userTurnCount conversation.history
    ({ reply := some reply_text, history := conversation.history,
       remaining_pairs := remaining, limit_reached := remaining == 0,
       model_called := true },
     alistSet convs (session_id, mode) conversation)

/-- The JSON body answered by `/api/get-first-question`. -/
structure FirstQuestionResult where
  session_id : String
  mode : String
  question : String
  part : String
  remaining_pairs : Nat
deriving Repr

/-- The `/api/get-first-question` handler body after input validation:
draw a question (entering here as `question_prompt`/`question_part`), reset
the conversation record and set its pending question. -/
def get_first_question (persona : String → String) (convs : Conversations)
    (session_id mode question_prompt question_part : String) :
    FirstQuestionResult × Conversations :=
  let (conversation, convs) := _reset_conversation persona convs session_id mode
  let conversation := { conversation with pending_question := some question_prompt }
  let convs := alistSet convs (session_id, mode) conversation
  ({ session_id := session_id, mode := mode, question := question_prompt,
     part := question_part, remaining_pairs := MAX_QA_PAIRS }, convs)

/-!
Part 6: Theorems
-/

theorem alistSet_get_self {α β : Type} [DecidableEq α]
    (l : List (α × β)) (k : α) (v : β) (h : alistGet l k = some v) :
    alistSet l k v = l := by
  induction l with
  | nil => simp [alistGet] at h
  | cons hd tl ih =>
      obtain ⟨k₀, w⟩ := hd
      by_cases h0 : k₀ = k
      · subst h0
        simp [alistGet] at h
        simp [alistSet, h]
      · simp only [alistGet, if_neg h0] at h
        simp [alistSet, h0, ih h]

theorem pyStripList_eq_rdropWhile (cs : List Char) :
    pyStripList cs = List.rdropWhile isPySpace (cs.dropWhile isPySpace) := rfl

theorem dropWhile_pyStripList (cs : List Char) :
    (pyStripList cs).dropWhile isPySpace = pyStripList cs := by
  rw [pyStripList_eq_rdropWhile, List.dropWhile_eq_self_iff]
  intro hl
  have hpre := List.rdropWhile_prefix isPySpace (cs.dropWhile isPySpace)
  have hzlen : 0 < (cs.dropWhile isPySpace).length :=
    lt_of_lt_of_le hl hpre.length_le
  have hget := hpre.getElem (n := 0) hl
  simpa [List.get_eq_getElem, hget] using
    List.dropWhile_get_zero_not isPySpace cs hzlen

theorem pyStripList_idem (cs : List Char) :
    pyStripList (pyStripList cs) = pyStripList cs := by
  rw [pyStripList_eq_rdropWhile (pyStripList cs), dropWhile_pyStripList,
    pyStripList_eq_rdropWhile cs, List.rdropWhile_idempotent]

theorem pyStripList_getLast_not_space (cs : List Char) (c : Char)
    (h : (pyStripList cs).getLast? = some c) : isPySpace c = false := by
  have hne : pyStripList cs ≠ [] := by
    intro hnil
    rw [hnil] at h
    simp at h
  have hlast := List.rdropWhile_last_not isPySpace (cs.dropWhile isPySpace)
    (by rw [← pyStripList_eq_rdropWhile]; exact hne)
  rw [List.getLast?_eq_getLast _ hne] at h
  have : (pyStripList cs).getLast hne = c := by injection h
  rw [← this]
  simpa [pyStripList_eq_rdropWhile] using hlast

theorem isSuffixOf_append_newline_pyStripList (cs f : List Char) :
    (f ++ ['\n']).isSuffixOf (pyStripList cs) = false := by
  by_contra hcon
  rw [Bool.not_eq_false, List.isSuffixOf_iff_suffix] at hcon
  obtain ⟨s, hs⟩ := hcon
  have hlast : (pyStripList cs).getLast? = some '\n' := by
    rw [← hs, ← List.append_assoc, List.getLast?_concat]
  have := pyStripList_getLast_not_space cs '\n' hlast
  simp [isPySpace] at this

theorem sanitizeChars_stripped (cs : List Char) :
    pyStripList (sanitizeChars cs) = sanitizeChars cs := by
  unfold sanitizeChars
  by_cases he : (pyStripList cs).isEmpty = true
  · rw [if_pos he]
    exact pyStripList_idem cs
  · rw [if_neg he]
    exact pyStripList_idem _

theorem stripPrefixFence_of_not (fence cs : List Char)
    (h : fence.isPrefixOf cs = false) :
    stripPrefixFence fence cs = cs := by
  unfold stripPrefixFence
  simp only [h]
  simp

theorem stripSuffixFence_of_not (fence cs : List Char)
    (h1 : fence.isSuffixOf cs = false)
    (h2 : (fence ++ ['\n']).isSuffixOf cs = false) :
    stripSuffixFence fence cs = cs := by
  unfold stripSuffixFence
  simp only [h1, h2]
  simp

/-- If the trimmed text neither starts nor ends with either fence marker,
the fence passes of the sanitizer leave it untouched and the result is exactly
the trimmed text. -/
theorem sanitizeChars_no_fence (cs : List Char)
    (hp1 : backtickFence.isPrefixOf (pyStripList cs) = false)
    (hp2 : tildeFence.isPrefixOf (pyStripList cs) = false)
    (hs1 : backtickFence.isSuffixOf (pyStripList cs) = false)
    (hs2 : tildeFence.isSuffixOf (pyStripList cs) = false) :
    sanitizeChars cs = pyStripList cs := by
  unfold sanitizeChars
  by_cases he : (pyStripList cs).isEmpty = true
  · rw [if_pos he]
  · simp only [if_neg he,
      stripPrefixFence_of_not _ _ hp1,
      stripSuffixFence_of_not _ _ hs1
        (isSuffixOf_append_newline_pyStripList cs _),
      stripPrefixFence_of_not _ _ hp2,
      stripSuffixFence_of_not _ _ hs2
        (isSuffixOf_append_newline_pyStripList cs _),
      pyStripList_idem]

/-- C2 counterexample: the sanitizer is not idempotent — on
`"``````json\nfoo"` one pass strips only the first three backticks (the
label class cannot match a backtick), leaving a fresh fence that a second
pass then strips. -/
theorem sanitize_not_idempotent_cx :
    _sanitize_evaluation_text (_sanitize_evaluation_text "``````json\nfoo") ≠
      _sanitize_evaluation_text "``````json\nfoo" := by decide

/-- C2 (amended): the sanitizer is idempotent on every input whose sanitized
form does not itself begin or end with a fence marker of either style; in
general a second pass can strip further (e.g. nested) fences. -/
theorem sanitize_idempotent_no_fence (x : String)
    (hp1 : backtickFence.isPrefixOf (_sanitize_evaluation_text x).data = false)
    (hp2 : tildeFence.isPrefixOf (_sanitize_evaluation_text x).data = false)
    (hs1 : backtickFence.isSuffixOf (_sanitize_evaluation_text x).data = false)
    (hs2 : tildeFence.isSuffixOf (_sanitize_evaluation_text x).data = false) :
    _sanitize_evaluation_text (_sanitize_evaluation_text x) =
      _sanitize_evaluation_text x := by
  unfold _sanitize_evaluation_text at *
  have hstrip : pyStripList (sanitizeChars x.data) = sanitizeChars x.data :=
    sanitizeChars_stripped x.data
  have := sanitizeChars_no_fence (sanitizeChars x.data)
    (by rw [hstrip]; exact hp1) (by rw [hstrip]; exact hp2)
    (by rw [hstrip]; exact hs1) (by rw [hstrip]; exact hs2)
  rw [show (String.mk (sanitizeChars x.data)).data = sanitizeChars x.data from rfl,
    this, hstrip]

theorem sanitize_idempotent_no_fence_witness :
    _sanitize_evaluation_text (_sanitize_evaluation_text "  (score: 4)  ") =
      _sanitize_evaluation_text "  (score: 4)  " :=
  sanitize_idempotent_no_fence "  (score: 4)  "
    (by decide) (by decide) (by decide) (by decide)

/-- C3 counterexample: the sanitizer can remove two matched fence pairs, one
per style — on `"```~~~(x)~~~```"` the single outermost-pair removal of the claim
would yield `"~~~(x)~~~"`, but the code yields `"(x)"`. -/
theorem sanitize_two_pairs_cx :
    _sanitize_evaluation_text "```~~~(x)~~~```" = "(x)" ∧
      ("(x)" : String) ≠ "~~~(x)~~~" := ⟨rfl, by decide⟩

/-- C3 (amended): the sanitizer makes one pass per fence style in fixed
order (backticks, then tildes), each pass removing at most one leading fence
of its style (optionally followed by a language label and whitespace) and at
most one trailing fence of its style — so up to two pairs, at most one per
style, can be removed; and for input with no fence markers at the start or
end of the trimmed text it returns exactly the whitespace-trimmed input. -/
theorem sanitize_per_style_passes :
    (∀ x : String,
      backtickFence.isPrefixOf (pyStrip x).data = false →
      tildeFence.isPrefixOf (pyStrip x).data = false →
      backtickFence.isSuffixOf (pyStrip x).data = false →
      tildeFence.isSuffixOf (pyStrip x).data = false →
      _sanitize_evaluation_text x = pyStrip x) ∧
    _sanitize_evaluation_text "```json\n(score: 3)\n```" = "(score: 3)" ∧
    _sanitize_evaluation_text "~~~```json\nbody\n```~~~" =
      "```json\nbody\n```" := by
  refine ⟨fun x hp1 hp2 hs1 hs2 => ?_, rfl, rfl⟩
  unfold _sanitize_evaluation_text
  rw [sanitizeChars_no_fence x.data hp1 hp2 hs1 hs2]
  rfl

theorem sanitize_per_style_passes_witness :
    _sanitize_evaluation_text " (plain: 1) " = pyStrip " (plain: 1) " :=
  sanitize_per_style_passes.1 " (plain: 1) "
    (by decide) (by decide) (by decide) (by decide)

/-- C6: a chat call for a `(session, mode)` key whose stored history already
holds at least `MAX_QA_PAIRS` user turns returns the limit-reached result
with `remaining_pairs = 0` and the stored history unchanged, leaves the
conversation store exactly as it was, and never invokes the external
model. -/
theorem chat_limit_short_circuit
    (persona : String → String) (model : String → List Message → String)
    (convs : Conversations) (session_id mode message : String)
    (conv₀ : Conversation)
    (hstored : alistGet convs (session_id, mode) = some conv₀)
    (hfull : MAX_QA_PAIRS ≤ userTurnCount conv₀.history) :
    chat persona model convs session_id mode message =
      ({ reply := none, history := conv₀.history, remaining_pairs := 0,
         limit_reached := true, model_called := false }, convs) := by
  unfold chat _get_or_create_conversation
  rw [hstored]
  simp [hfull]

/-- A five-user-turn conversation used to witness the chat limit. -/
def convAtLimit : Conversation :=
  { mode := "toefl", system_prompt := "persona prompt",
    history := [⟨"user", "a1"⟩, ⟨"assistant", "r1"⟩, ⟨"user", "a2"⟩,
                ⟨"user", "a3"⟩, ⟨"user", "a4"⟩, ⟨"user", "a5"⟩],
    pending_question := none }

theorem chat_limit_short_circuit_witness :
    chat (fun _ => "persona prompt") (fun _ _ => "model reply")
        [(("s1", "toefl"), convAtLimit)] "s1" "toefl" "hello" =
      ({ reply := none, history := convAtLimit.history, remaining_pairs := 0,
         limit_reached := true, model_called := false },
       [(("s1", "toefl"), convAtLimit)]) :=
  chat_limit_short_circuit (fun _ => "persona prompt") (fun _ _ => "model reply")
    [(("s1", "toefl"), convAtLimit)] "s1" "toefl" "hello" convAtLimit
    rfl (by decide)

/-- C10: every chat response has `remaining_pairs` between 0 and
`MAX_QA_PAIRS = 5` inclusive, and `limit_reached` holds exactly when
`remaining_pairs` is zero. -/
theorem chat_remaining_pairs_invariant
    (persona : String → String) (model : String → List Message → String)
    (convs : Conversations) (session_id mode message : String) :
    0 ≤ (chat persona model convs session_id mode message).1.remaining_pairs ∧
    (chat persona model convs session_id mode message).1.remaining_pairs ≤
      MAX_QA_PAIRS ∧
    ((chat persona model convs session_id mode message).1.limit_reached = true ↔
      (chat persona model convs session_id mode message).1.remaining_pairs = 0) := by
  unfold chat
  cases hgc : _get_or_create_conversation persona convs session_id mode with
  | mk conversation convs₁ =>
      by_cases hle : MAX_QA_PAIRS ≤ userTurnCount conversation.history
      · simp [hle]
      · simp only [if_neg hle]
        refine ⟨Nat.zero_le _, Nat.sub_le _ _, ?_⟩
        simp

/-- C7: a get-first-question request resets the `(session, mode)` record for
every prior store state — the stored record afterwards has empty history,
the persona prompt snapshot of the mode and the drawn question pending — and in
particular a second start-interview call discards everything accumulated
after the first. -/
theorem get_first_question_resets
    (persona : String → String) (convs : Conversations)
    (session_id mode question_prompt question_part : String) :
    (alistGet
        (get_first_question persona convs session_id mode
          question_prompt question_part).2 (session_id, mode) =
      some { mode := mode, system_prompt := persona mode, history := [],
             pending_question := some question_prompt }) ∧
    (get_first_question persona convs session_id mode
        question_prompt question_part).1.remaining_pairs = MAX_QA_PAIRS ∧
    (∀ q₁ p₁ q₂ p₂ : String,
      alistGet
          (get_first_question persona
            (get_first_question persona convs session_id mode q₁ p₁).2
            session_id mode q₂ p₂).2 (session_id, mode) =
        some { mode := mode, system_prompt := persona mode, history := [],
               pending_question := some q₂ }) := by
  refine ⟨?_, rfl, fun q₁ p₁ q₂ p₂ => ?_⟩ <;>
    simp [get_first_question, _reset_conversation, alistGet_alistSet_self]

/-!
Validator stage lemmas
-/

theorem ebind_ok {ε α β : Type} (a : α) (f : α → Except ε β) :
    (Except.ok a >>= f) = f a := rfl

theorem ebind_err {ε α β : Type} (e : ε) (f : α → Except ε β) :
    ((Except.error e : Except ε α) >>= f) = .error e := rfl

theorem validateMode_ok_cases (r r' : List (String × Json))
    (h : validateMode r = .ok r') :
    r' = r ∨ ∃ s, alistGet r "mode" = some (.str s) ∧
      r' = alistSet r "mode" (.str (pyLower s)) := by
  unfold validateMode at h
  cases hm : alistGet r "mode" with
  | none =>
      simp only [hm] at h
      injection h with h
      exact .inl h.symm
  | some v =>
      simp only [hm] at h
      by_cases ht : v.truthy = true
      · rw [if_pos ht] at h
        cases v with
        | str s =>
            injection h with h
            exact .inr ⟨s, rfl, h.symm⟩
        | null => exact Except.noConfusion h
        | bool b => exact Except.noConfusion h
        | num n => exact Except.noConfusion h
        | arr l => exact Except.noConfusion h
        | obj o => exact Except.noConfusion h
      · rw [if_neg ht] at h
        injection h with h
        exact .inl h.symm

theorem validateMode_frame (r r' : List (String × Json))
    (h : validateMode r = .ok r') (k : String) (hk : k ≠ "mode") :
    alistGet r' k = alistGet r k := by
  rcases validateMode_ok_cases r r' h with rfl | ⟨s, _, rfl⟩
  · rfl
  · exact alistGet_alistSet_ne _ _ _ _ hk

theorem validateMode_err (r : List (String × Json)) (v : Json)
    (hm : alistGet r "mode" = some v) (ht : v.truthy = true)
    (hs : v.isStr = false) :
    validateMode r = .error "Evaluation mode must be a string" := by
  unfold validateMode
  simp only [hm, if_pos ht]
  cases v <;> simp_all [Json.isStr]

theorem validateMode_str (r : List (String × Json)) (s : String)
    (hm : alistGet r "mode" = some (.str s)) (hs : s ≠ "") :
    validateMode r = .ok (alistSet r "mode" (.str (pyLower s))) := by
  unfold validateMode
  simp only [hm]
  rw [if_pos]
  show (!s.isEmpty) = true
  rw [Bool.not_eq_true', Bool.eq_false_iff]
  intro habs
  exact hs ((String.isEmpty_iff s).mp habs)

theorem ensureDict_absent (r : List (String × Json)) (k : String)
    (h : alistGet r k = none ∨ alistGet r k = some .null) :
    ensureDict r k = .ok (alistSet r k (.obj [])) := by
  unfold ensureDict
  rcases h with h | h <;> simp only [h]

theorem ensureDict_err (r : List (String × Json)) (k : String) (v : Json)
    (h : alistGet r k = some v) (hn : v.isNull = false)
    (ho : v.isObj = false) :
    ensureDict r k = .error s!"Field \x27{k}\x27 must be an object" := by
  unfold ensureDict
  simp only [h]
  cases v <;> simp_all [Json.isNull, Json.isObj]

theorem ensureDict_ok_cases (r : List (String × Json)) (k : String)
    (r' : List (String × Json)) (h : ensureDict r k = .ok r') :
    (r' = alistSet r k (.obj []) ∧
      (alistGet r k = none ∨ alistGet r k = some .null)) ∨
    (r' = r ∧ ∃ o, alistGet r k = some (.obj o)) := by
  unfold ensureDict at h
  cases hm : alistGet r k with
  | none =>
      simp only [hm] at h
      injection h with h
      exact .inl ⟨h.symm, .inl rfl⟩
  | some v =>
      simp only [hm] at h
      cases v with
      | null =>
          injection h with h
          exact .inl ⟨h.symm, .inr rfl⟩
      | obj o =>
          injection h with h
          exact .inr ⟨h.symm, o, rfl⟩
      | bool b => exact Except.noConfusion h
      | num n => exact Except.noConfusion h
      | str s => exact Except.noConfusion h
      | arr l => exact Except.noConfusion h

theorem ensureDict_frame (r : List (String × Json)) (k : String)
    (r' : List (String × Json)) (h : ensureDict r k = .ok r')
    (k' : String) (hk : k' ≠ k) : alistGet r' k' = alistGet r k' := by
  rcases ensureDict_ok_cases r k r' h with ⟨rfl, _⟩ | ⟨rfl, _⟩
  · exact alistGet_alistSet_ne _ _ _ _ hk
  · rfl

theorem ensureDict_default_out (r : List (String × Json)) (k : String)
    (r' : List (String × Json)) (h : ensureDict r k = .ok r')
    (hd : alistGet r k = none ∨ alistGet r k = some .null) :
    alistGet r' k = some (.obj []) := by
  rw [ensureDict_absent r k hd] at h
  injection h with h
  rw [← h]
  exact alistGet_alistSet_self _ _ _

theorem ensureList_ok_cases (r : List (String × Json)) (k : String)
    (r' : List (String × Json)) (l : List Json)
    (h : ensureList r k = .ok (r', l)) :
    (r' = alistSet r k (.arr []) ∧ l = [] ∧
      (alistGet r k = none ∨ alistGet r k = some .null)) ∨
    (r' = r ∧ alistGet r k = some (.arr l)) := by
  unfold ensureList at h
  cases hm : alistGet r k with
  | none =>
      simp only [hm] at h
      injection h with h
      exact .inl ⟨congrArg Prod.fst h.symm, congrArg Prod.snd h.symm, .inl rfl⟩
  | some v =>
      simp only [hm] at h
      cases v with
      | null =>
          injection h with h
          exact .inl ⟨congrArg Prod.fst h.symm, congrArg Prod.snd h.symm, .inr rfl⟩
      | arr l₀ =>
          injection h with h
          have h1 : r' = r := congrArg Prod.fst h.symm
          have h2 : l₀ = l := congrArg Prod.snd h
          refine .inr ⟨h1, ?_⟩
          rw [h2]
      | bool b => exact Except.noConfusion h
      | num n => exact Except.noConfusion h
      | str s => exact Except.noConfusion h
      | obj o => exact Except.noConfusion h

theorem ensureList_err (r : List (String × Json)) (k : String) (v : Json)
    (h : alistGet r k = some v) (hn : v.isNull = false)
    (ha : v.isArr = false) :
    ensureList r k = .error s!"Field \x27{k}\x27 must be a list" := by
  unfold ensureList
  simp only [h]
  cases v <;> simp_all [Json.isNull, Json.isArr]

theorem ensureList_frame (r : List (String × Json)) (k : String)
    (r' : List (String × Json)) (l : List Json)
    (h : ensureList r k = .ok (r', l)) (k' : String) (hk : k' ≠ k) :
    alistGet r' k' = alistGet r k' := by
  rcases ensureList_ok_cases r k r' l h with ⟨rfl, _, _⟩ | ⟨rfl, _⟩
  · exact alistGet_alistSet_ne _ _ _ _ hk
  · rfl

theorem validateFeedback_ok_eq (r r' : List (String × Json))
    (h : validateFeedback r = .ok r') : r' = r := by
  unfold validateFeedback at h
  cases hm : alistGet r "detailed_feedback" with
  | none =>
      simp only [hm] at h
      injection h with h
      exact h.symm
  | some v =>
      simp only [hm] at h
      cases v <;> first
        | (injection h with h; exact h.symm)
        | exact Except.noConfusion h

theorem validateExamples_absent (r : List (String × Json))
    (hd : alistGet r "specific_examples" = none ∨
      alistGet r "specific_examples" = some .null) :
    validateExamples r = .ok (alistSet r "specific_examples"
      (.obj [("good", .arr []), ("needs_work", .arr [])])) := by
  unfold validateExamples
  rcases hd with h | h <;> simp only [h] <;> rfl

theorem validateExamples_err_top (r : List (String × Json)) (v : Json)
    (h : alistGet r "specific_examples" = some v) (hn : v.isNull = false)
    (ho : v.isObj = false) :
    validateExamples r =
      .error "Field \x27specific_examples\x27 must be an object" := by
  unfold validateExamples
  simp only [h]
  cases v <;> simp_all [Json.isNull, Json.isObj] <;> rfl

theorem validateExamples_obj_ok (r e r' : List (String × Json))
    (hm : alistGet r "specific_examples" = some (.obj e))
    (h : validateExamples r = .ok r') :
    ∃ gl nl,
      (alistGet e "good" = some (.arr gl) ∨
        ((alistGet e "good" = none ∨
          ∃ v, alistGet e "good" = some v ∧ v.truthy = false) ∧ gl = [])) ∧
      (alistGet e "needs_work" = some (.arr nl) ∨
        ((alistGet e "needs_work" = none ∨
          ∃ v, alistGet e "needs_work" = some v ∧ v.truthy = false) ∧
          nl = [])) ∧
      r' = alistSet r "specific_examples"
        (.obj (alistSet (alistSet e "good" (.arr (gl.filter isNonBlankStr)))
          "needs_work" (.arr (nl.filter isNonBlankStr)))) := by
  unfold validateExamples at h
  simp only [hm, ebind_ok] at h
  cases hg : alistGet e "good" with
  | none =>
      simp only [hg] at h
      cases hn : alistGet e "needs_work" with
      | none =>
          simp only [hn] at h
          injection h with h
          exact ⟨[], [], .inr ⟨.inl rfl, rfl⟩, .inr ⟨.inl rfl, rfl⟩, h.symm⟩
      | some w =>
          simp only [hn] at h
          by_cases hwt : w.truthy = true
          · rw [if_pos hwt] at h
            cases w with
            | arr nl =>
                injection h with h
                exact ⟨[], nl, .inr ⟨.inl rfl, rfl⟩, .inl rfl, h.symm⟩
            | null => exact Except.noConfusion h
            | bool b => exact Except.noConfusion h
            | num n => exact Except.noConfusion h
            | str s => exact Except.noConfusion h
            | obj o => exact Except.noConfusion h
          · rw [if_neg hwt] at h
            injection h with h
            exact ⟨[], [], .inr ⟨.inl rfl, rfl⟩,
              .inr ⟨.inr ⟨w, rfl, Bool.eq_false_iff.mpr hwt⟩, rfl⟩, h.symm⟩
  | some v =>
      simp only [hg] at h
      by_cases hvt : v.truthy = true
      · rw [if_pos hvt] at h
        cases v with
        | arr gl =>
            cases hn : alistGet e "needs_work" with
            | none =>
                simp only [hn] at h
                injection h with h
                exact ⟨gl, [], .inl rfl, .inr ⟨.inl rfl, rfl⟩, h.symm⟩
            | some w =>
                simp only [hn] at h
                by_cases hwt : w.truthy = true
                · rw [if_pos hwt] at h
                  cases w with
                  | arr nl =>
                      injection h with h
                      exact ⟨gl, nl, .inl rfl, .inl rfl, h.symm⟩
                  | null => exact Except.noConfusion h
                  | bool b => exact Except.noConfusion h
                  | num n => exact Except.noConfusion h
                  | str s => exact Except.noConfusion h
                  | obj o => exact Except.noConfusion h
                · rw [if_neg hwt] at h
                  injection h with h
                  exact ⟨gl, [], .inl rfl,
                    .inr ⟨.inr ⟨w, rfl, Bool.eq_false_iff.mpr hwt⟩, rfl⟩, h.symm⟩
        | null => exact Except.noConfusion h
        | bool b => exact Except.noConfusion h
        | num n => exact Except.noConfusion h
        | str s => exact Except.noConfusion h
        | obj o => exact Except.noConfusion h
      · rw [if_neg hvt] at h
        have hvf : v.truthy = false := Bool.eq_false_iff.mpr hvt
        cases hn : alistGet e "needs_work" with
        | none =>
            simp only [hn] at h
            injection h with h
            exact ⟨[], [], .inr ⟨.inr ⟨v, rfl, hvf⟩, rfl⟩,
              .inr ⟨.inl rfl, rfl⟩, h.symm⟩
        | some w =>
            simp only [hn] at h
            by_cases hwt : w.truthy = true
            · rw [if_pos hwt] at h
              cases w with
              | arr nl =>
                  injection h with h
                  exact ⟨[], nl, .inr ⟨.inr ⟨v, rfl, hvf⟩, rfl⟩,
                    .inl rfl, h.symm⟩
              | null => exact Except.noConfusion h
              | bool b => exact Except.noConfusion h
              | num n => exact Except.noConfusion h
              | str s => exact Except.noConfusion h
              | obj o => exact Except.noConfusion h
            · rw [if_neg hwt] at h
              injection h with h
              exact ⟨[], [], .inr ⟨.inr ⟨v, rfl, hvf⟩, rfl⟩,
                .inr ⟨.inr ⟨w, rfl, Bool.eq_false_iff.mpr hwt⟩, rfl⟩, h.symm⟩

theorem validateExamples_err_sub (r e : List (String × Json)) (key : String)
    (hm : alistGet r "specific_examples" = some (.obj e))
    (hkey : key = "good" ∨ key = "needs_work")
    (v : Json) (hv : alistGet e key = some v) (ht : v.truthy = true)
    (ha : v.isArr = false) :
    validateExamples r = .error "Example lists must be arrays" := by
  unfold validateExamples
  simp only [hm, ebind_ok]
  rcases hkey with rfl | rfl
  · simp only [hv, if_pos ht]
    cases v <;> simp_all [Json.isArr]
  · cases hg : alistGet e "good" with
    | none =>
        simp only [hg, hv, if_pos ht]
        cases v <;> simp_all [Json.isArr]
    | some u =>
        simp only [hg, hv, if_pos ht]
        by_cases hut : u.truthy = true
        · rw [if_pos hut]
          cases u <;> cases v <;> simp_all [Json.isArr]
        · rw [if_neg hut]
          cases v <;> simp_all [Json.isArr]

theorem validateExamples_frame (r r' : List (String × Json))
    (h : validateExamples r = .ok r') (k : String)
    (hk : k ≠ "specific_examples") : alistGet r' k = alistGet r k := by
  cases hm : alistGet r "specific_examples" with
  | none =>
      rw [validateExamples_absent r (.inl hm)] at h
      injection h with h
      rw [← h]
      exact alistGet_alistSet_ne _ _ _ _ hk
  | some v =>
      cases v with
      | null =>
          rw [validateExamples_absent r (.inr hm)] at h
          injection h with h
          rw [← h]
          exact alistGet_alistSet_ne _ _ _ _ hk
      | obj e =>
          obtain ⟨gl, nl, _, _, rfl⟩ := validateExamples_obj_ok r e r' hm h
          exact alistGet_alistSet_ne _ _ _ _ hk
      | bool b => rw [validateExamples_err_top r _ hm rfl rfl] at h
                  exact Except.noConfusion h
      | num n => rw [validateExamples_err_top r _ hm rfl rfl] at h
                 exact Except.noConfusion h
      | str s => rw [validateExamples_err_top r _ hm rfl rfl] at h
                 exact Except.noConfusion h
      | arr l => rw [validateExamples_err_top r _ hm rfl rfl] at h
                 exact Except.noConfusion h

theorem validate_evaluation_ok_decomp (r : List (String × Json)) (out : Json)
    (h : validate_evaluation (.obj r) = .ok out) :
    ∃ r₁ r₂ r₃ r₄ qb r₅ st r₆ im r₇,
      validateMode r = .ok r₁ ∧
      ensureDict r₁ "criterion_scores" = .ok r₂ ∧
      ensureDict r₂ "equivalent_scores" = .ok r₃ ∧
      ensureList r₃ "question_breakdown" = .ok (r₄, qb) ∧
      ensureList r₄ "strengths" = .ok (r₅, st) ∧
      ensureList r₅ "improvements" = .ok (r₆, im) ∧
      validateExamples
        (alistSet (alistSet (alistSet r₆ "question_breakdown"
            (.arr (qb.filter isDictEntry)))
          "strengths" (.arr (st.filter isNonBlankStr)))
          "improvements" (.arr (im.filter isNonBlankStr))) = .ok r₇ ∧
      out = .obj r₇ := by
  unfold validate_evaluation at h
  simp only [] at h
  cases h1 : validateMode r with
  | error e => rw [h1, ebind_err] at h; exact Except.noConfusion h
  | ok r₁ =>
  rw [h1, ebind_ok] at h
  cases h2 : ensureDict r₁ "criterion_scores" with
  | error e => rw [h2, ebind_err] at h; exact Except.noConfusion h
  | ok r₂ =>
  rw [h2, ebind_ok] at h
  cases h3 : ensureDict r₂ "equivalent_scores" with
  | error e => rw [h3, ebind_err] at h; exact Except.noConfusion h
  | ok r₃ =>
  rw [h3, ebind_ok] at h
  cases h4 : ensureList r₃ "question_breakdown" with
  | error e => rw [h4, ebind_err] at h; exact Except.noConfusion h
  | ok p4 =>
  obtain ⟨r₄, qb⟩ := p4
  rw [h4, ebind_ok] at h
  simp only [] at h
  cases h5 : ensureList r₄ "strengths" with
  | error e => rw [h5, ebind_err] at h; exact Except.noConfusion h
  | ok p5 =>
  obtain ⟨r₅, st⟩ := p5
  rw [h5, ebind_ok] at h
  simp only [] at h
  cases h6 : ensureList r₅ "improvements" with
  | error e => rw [h6, ebind_err] at h; exact Except.noConfusion h
  | ok p6 =>
  obtain ⟨r₆, im⟩ := p6
  rw [h6, ebind_ok] at h
  simp only [] at h
  cases h7 : validateExamples
      (alistSet (alistSet (alistSet r₆ "question_breakdown"
          (.arr (qb.filter isDictEntry)))
        "strengths" (.arr (st.filter isNonBlankStr)))
        "improvements" (.arr (im.filter isNonBlankStr))) with
  | error e => rw [h7, ebind_err] at h; exact Except.noConfusion h
  | ok r₇ =>
  rw [h7, ebind_ok] at h
  cases h8 : validateFeedback r₇ with
  | error e => rw [h8, ebind_err] at h; exact Except.noConfusion h
  | ok r₈ =>
  rw [h8, ebind_ok] at h
  simp only [pure, Except.pure] at h
  injection h with h
  have hr8 : r₈ = r₇ := validateFeedback_ok_eq r₇ r₈ h8
  subst hr8
  exact ⟨r₁, r₂, r₃, r₄, qb, r₅, st, r₆, im, r₈,
    rfl, h2, h3, h4, h5, h6, h7, h.symm⟩


theorem head_frame (r r₁ r₂ r₃ : List (String × Json))
    (h1 : validateMode r = .ok r₁)
    (h2 : ensureDict r₁ "criterion_scores" = .ok r₂)
    (h3 : ensureDict r₂ "equivalent_scores" = .ok r₃)
    (k : String) (hk0 : k ≠ "mode") (hk1 : k ≠ "criterion_scores")
    (hk2 : k ≠ "equivalent_scores") :
    alistGet r₃ k = alistGet r k := by
  rw [ensureDict_frame _ _ _ h3 k hk2, ensureDict_frame _ _ _ h2 k hk1,
    validateMode_frame _ _ h1 k hk0]

theorem tail_frame (r₃ r₄ : List (String × Json)) (qb : List Json)
    (r₅ : List (String × Json)) (st : List Json)
    (r₆ : List (String × Json)) (im : List Json)
    (r₇ : List (String × Json))
    (h4 : ensureList r₃ "question_breakdown" = .ok (r₄, qb))
    (h5 : ensureList r₄ "strengths" = .ok (r₅, st))
    (h6 : ensureList r₅ "improvements" = .ok (r₆, im))
    (h7 : validateExamples
      (alistSet (alistSet (alistSet r₆ "question_breakdown"
          (.arr (qb.filter isDictEntry)))
        "strengths" (.arr (st.filter isNonBlankStr)))
        "improvements" (.arr (im.filter isNonBlankStr))) = .ok r₇)
    (k : String) (hk1 : k ≠ "question_breakdown") (hk2 : k ≠ "strengths")
    (hk3 : k ≠ "improvements") (hk4 : k ≠ "specific_examples") :
    alistGet r₇ k = alistGet r₃ k := by
  rw [validateExamples_frame _ _ h7 k hk4,
    alistGet_alistSet_ne _ _ _ _ hk3, alistGet_alistSet_ne _ _ _ _ hk2,
    alistGet_alistSet_ne _ _ _ _ hk1,
    ensureList_frame _ _ _ _ h6 k hk3, ensureList_frame _ _ _ _ h5 k hk2,
    ensureList_frame _ _ _ _ h4 k hk1]

/-- C1: for every mapping payload, `validate_evaluation` defaults
`criterion_scores` and `equivalent_scores` to an empty mapping when absent
or null and raises when they are present but not a mapping; it defaults
`question_breakdown`, `strengths` and `improvements` to an empty sequence
when absent or null, raises when they are present but not a sequence, and
filters them so that `question_breakdown` keeps only mapping entries while
`strengths` and `improvements` keep only strings with non-blank trimmed
content. -/
theorem validate_evaluation_collection_fields (r : List (String × Json)) :
    ((alistGet r "criterion_scores" = none ∨
        alistGet r "criterion_scores" = some .null) →
      ∀ out, validate_evaluation (.obj r) = .ok out →
        ∃ fields, out = .obj fields ∧
          alistGet fields "criterion_scores" = some (.obj [])) ∧
    (∀ v, alistGet r "criterion_scores" = some v → v.isNull = false →
      v.isObj = false → ∃ msg, validate_evaluation (.obj r) = .error msg) ∧
    ((alistGet r "equivalent_scores" = none ∨
        alistGet r "equivalent_scores" = some .null) →
      ∀ out, validate_evaluation (.obj r) = .ok out →
        ∃ fields, out = .obj fields ∧
          alistGet fields "equivalent_scores" = some (.obj [])) ∧
    (∀ v, alistGet r "equivalent_scores" = some v → v.isNull = false →
      v.isObj = false → ∃ msg, validate_evaluation (.obj r) = .error msg) ∧
    (∀ v, alistGet r "question_breakdown" = some v → v.isNull = false →
      v.isArr = false → ∃ msg, validate_evaluation (.obj r) = .error msg) ∧
    (∀ out, validate_evaluation (.obj r) = .ok out →
      ∃ fields l, out = .obj fields ∧
        (alistGet r "question_breakdown" = some (.arr l) ∨
          ((alistGet r "question_breakdown" = none ∨
            alistGet r "question_breakdown" = some .null) ∧ l = [])) ∧
        alistGet fields "question_breakdown" =
          some (.arr (l.filter isDictEntry))) ∧
    (∀ v, alistGet r "strengths" = some v → v.isNull = false →
      v.isArr = false → ∃ msg, validate_evaluation (.obj r) = .error msg) ∧
    (∀ out, validate_evaluation (.obj r) = .ok out →
      ∃ fields l, out = .obj fields ∧
        (alistGet r "strengths" = some (.arr l) ∨
          ((alistGet r "strengths" = none ∨
            alistGet r "strengths" = some .null) ∧ l = [])) ∧
        alistGet fields "strengths" =
          some (.arr (l.filter isNonBlankStr))) ∧
    (∀ v, alistGet r "improvements" = some v → v.isNull = false →
      v.isArr = false → ∃ msg, validate_evaluation (.obj r) = .error msg) ∧
    (∀ out, validate_evaluation (.obj r) = .ok out →
      ∃ fields l, out = .obj fields ∧
        (alistGet r "improvements" = some (.arr l) ∨
          ((alistGet r "improvements" = none ∨
            alistGet r "improvements" = some .null) ∧ l = [])) ∧
        alistGet fields "improvements" =
          some (.arr (l.filter isNonBlankStr))) := by
  refine ⟨?_, ?_, ?_, ?_, ?_, ?_, ?_, ?_, ?_, ?_⟩
  · -- criterion_scores defaulting
    intro hd out h
    obtain ⟨r₁, r₂, r₃, r₄, qb, r₅, st, r₆, im, r₇,
      h1, h2, h3, h4, h5, h6, h7, rfl⟩ := validate_evaluation_ok_decomp r out h
    refine ⟨r₇, rfl, ?_⟩
    rw [tail_frame r₃ r₄ qb r₅ st r₆ im r₇ h4 h5 h6 h7 _
        (by decide) (by decide) (by decide) (by decide),
      ensureDict_frame _ _ _ h3 _ (by decide)]
    exact ensureDict_default_out r₁ _ r₂ h2
      (by rw [validateMode_frame r r₁ h1 _ (by decide)]; exact hd)
  · -- criterion_scores wrong type
    intro v hv hn ho
    cases hres : validate_evaluation (.obj r) with
    | error msg => exact ⟨msg, rfl⟩
    | ok out =>
        obtain ⟨r₁, r₂, r₃, r₄, qb, r₅, st, r₆, im, r₇,
          h1, h2, h3, h4, h5, h6, h7, rfl⟩ :=
          validate_evaluation_ok_decomp r out hres
        rw [ensureDict_err r₁ _ v
          (by rw [validateMode_frame r r₁ h1 _ (by decide)]; exact hv)
          hn ho] at h2
        exact Except.noConfusion h2
  · -- equivalent_scores defaulting
    intro hd out h
    obtain ⟨r₁, r₂, r₃, r₄, qb, r₅, st, r₆, im, r₇,
      h1, h2, h3, h4, h5, h6, h7, rfl⟩ := validate_evaluation_ok_decomp r out h
    refine ⟨r₇, rfl, ?_⟩
    rw [tail_frame r₃ r₄ qb r₅ st r₆ im r₇ h4 h5 h6 h7 _
        (by decide) (by decide) (by decide) (by decide)]
    exact ensureDict_default_out r₂ _ r₃ h3
      (by rw [ensureDict_frame _ _ _ h2 _ (by decide),
          validateMode_frame r r₁ h1 _ (by decide)]; exact hd)
  · -- equivalent_scores wrong type
    intro v hv hn ho
    cases hres : validate_evaluation (.obj r) with
    | error msg => exact ⟨msg, rfl⟩
    | ok out =>
        obtain ⟨r₁, r₂, r₃, r₄, qb, r₅, st, r₆, im, r₇,
          h1, h2, h3, h4, h5, h6, h7, rfl⟩ :=
          validate_evaluation_ok_decomp r out hres
        rw [ensureDict_err r₂ _ v
          (by rw [ensureDict_frame _ _ _ h2 _ (by decide),
              validateMode_frame r r₁ h1 _ (by decide)]; exact hv)
          hn ho] at h3
        exact Except.noConfusion h3
  · -- question_breakdown wrong type
    intro v hv hn ha
    cases hres : validate_evaluation (.obj r) with
    | error msg => exact ⟨msg, rfl⟩
    | ok out =>
        obtain ⟨r₁, r₂, r₃, r₄, qb, r₅, st, r₆, im, r₇,
          h1, h2, h3, h4, h5, h6, h7, rfl⟩ :=
          validate_evaluation_ok_decomp r out hres
        rw [ensureList_err r₃ _ v
          (by rw [head_frame r r₁ r₂ r₃ h1 h2 h3 _
              (by decide) (by decide) (by decide)]; exact hv)
          hn ha] at h4
        exact Except.noConfusion h4
  · -- question_breakdown filtering
    intro out h
    obtain ⟨r₁, r₂, r₃, r₄, qb, r₅, st, r₆, im, r₇,
      h1, h2, h3, h4, h5, h6, h7, rfl⟩ := validate_evaluation_ok_decomp r out h
    have hr₃ : alistGet r₃ "question_breakdown" =
        alistGet r "question_breakdown" :=
      head_frame r r₁ r₂ r₃ h1 h2 h3 _ (by decide) (by decide) (by decide)
    have hout : alistGet r₇ "question_breakdown" =
        some (.arr (qb.filter isDictEntry)) := by
      rw [validateExamples_frame _ _ h7 _ (by decide),
        alistGet_alistSet_ne _ _ _ _ (by decide),
        alistGet_alistSet_ne _ _ _ _ (by decide),
        alistGet_alistSet_self]
    refine ⟨r₇, qb, rfl, ?_, hout⟩
    rcases ensureList_ok_cases r₃ _ r₄ qb h4 with ⟨_, hqb, hd⟩ | ⟨_, hsome⟩
    · exact .inr ⟨by rw [← hr₃]; exact hd, hqb⟩
    · exact .inl (by rw [← hr₃]; exact hsome)
  · -- strengths wrong type
    intro v hv hn ha
    cases hres : validate_evaluation (.obj r) with
    | error msg => exact ⟨msg, rfl⟩
    | ok out =>
        obtain ⟨r₁, r₂, r₃, r₄, qb, r₅, st, r₆, im, r₇,
          h1, h2, h3, h4, h5, h6, h7, rfl⟩ :=
          validate_evaluation_ok_decomp r out hres
        rw [ensureList_err r₄ _ v
          (by rw [ensureList_frame _ _ _ _ h4 _ (by decide),
              head_frame r r₁ r₂ r₃ h1 h2 h3 _
                (by decide) (by decide) (by decide)]; exact hv)
          hn ha] at h5
        exact Except.noConfusion h5
  · -- strengths filtering
    intro out h
    obtain ⟨r₁, r₂, r₃, r₄, qb, r₅, st, r₆, im, r₇,
      h1, h2, h3, h4, h5, h6, h7, rfl⟩ := validate_evaluation_ok_decomp r out h
    have hr₄ : alistGet r₄ "strengths" = alistGet r "strengths" := by
      rw [ensureList_frame _ _ _ _ h4 _ (by decide)]
      exact head_frame r r₁ r₂ r₃ h1 h2 h3 _
        (by decide) (by decide) (by decide)
    have hout : alistGet r₇ "strengths" =
        some (.arr (st.filter isNonBlankStr)) := by
      rw [validateExamples_frame _ _ h7 _ (by decide),
        alistGet_alistSet_ne _ _ _ _ (by decide),
        alistGet_alistSet_self]
    refine ⟨r₇, st, rfl, ?_, hout⟩
    rcases ensureList_ok_cases r₄ _ r₅ st h5 with ⟨_, hst, hd⟩ | ⟨_, hsome⟩
    · exact .inr ⟨by rw [← hr₄]; exact hd, hst⟩
    · exact .inl (by rw [← hr₄]; exact hsome)
  · -- improvements wrong type
    intro v hv hn ha
    cases hres : validate_evaluation (.obj r) with
    | error msg => exact ⟨msg, rfl⟩
    | ok out =>
        obtain ⟨r₁, r₂, r₃, r₄, qb, r₅, st, r₆, im, r₇,
          h1, h2, h3, h4, h5, h6, h7, rfl⟩ :=
          validate_evaluation_ok_decomp r out hres
        rw [ensureList_err r₅ _ v
          (by rw [ensureList_frame _ _ _ _ h5 _ (by decide),
              ensureList_frame _ _ _ _ h4 _ (by decide),
              head_frame r r₁ r₂ r₃ h1 h2 h3 _
                (by decide) (by decide) (by decide)]; exact hv)
          hn ha] at h6
        exact Except.noConfusion h6
  · -- improvements filtering
    intro out h
    obtain ⟨r₁, r₂, r₃, r₄, qb, r₅, st, r₆, im, r₇,
      h1, h2, h3, h4, h5, h6, h7, rfl⟩ := validate_evaluation_ok_decomp r out h
    have hr₅ : alistGet r₅ "improvements" = alistGet r "improvements" := by
      rw [ensureList_frame _ _ _ _ h5 _ (by decide),
        ensureList_frame _ _ _ _ h4 _ (by decide)]
      exact head_frame r r₁ r₂ r₃ h1 h2 h3 _
        (by decide) (by decide) (by decide)
    have hout : alistGet r₇ "improvements" =
        some (.arr (im.filter isNonBlankStr)) := by
      rw [validateExamples_frame _ _ h7 _ (by decide),
        alistGet_alistSet_self]
    refine ⟨r₇, im, rfl, ?_, hout⟩
    rcases ensureList_ok_cases r₅ _ r₆ im h6 with ⟨_, him, hd⟩ | ⟨_, hsome⟩
    · exact .inr ⟨by rw [← hr₅]; exact hd, him⟩
    · exact .inl (by rw [← hr₅]; exact hsome)

/-- Concrete mapping payload used by the C1 witness. -/
def payloadC1 : List (String × Json) := [("criterion_scores", .null)]

/-- The validator output on `payloadC1`. -/
def outputC1 : Json := .obj
  [("criterion_scores", .obj []), ("equivalent_scores", .obj []),
   ("question_breakdown", .arr []), ("strengths", .arr []),
   ("improvements", .arr []),
   ("specific_examples", .obj [("good", .arr []), ("needs_work", .arr [])])]

theorem validate_evaluation_collection_fields_witness :
    (∃ fields, outputC1 = .obj fields ∧
      alistGet fields "criterion_scores" = some (.obj [])) ∧
    (∃ msg, validate_evaluation
      (.obj [("question_breakdown", .str "bad")]) = .error msg) :=
  ⟨(validate_evaluation_collection_fields payloadC1).1 (.inr rfl) outputC1 rfl,
   (validate_evaluation_collection_fields
      [("question_breakdown", .str "bad")]).2.2.2.2.1 (.str "bad") rfl rfl rfl⟩

/-- C9: if a `mode` field is present and non-empty (Python-truthy), the
validator raises a ValidationError when it is not a string and otherwise
replaces it with its lower-cased form. -/
theorem validate_evaluation_mode_lowercased (r : List (String × Json)) :
    (∀ v, alistGet r "mode" = some v → v.truthy = true → v.isStr = false →
      validate_evaluation (.obj r) =
        .error "Evaluation mode must be a string") ∧
    (∀ s, alistGet r "mode" = some (.str s) → s ≠ "" →
      ∀ out, validate_evaluation (.obj r) = .ok out →
        ∃ fields, out = .obj fields ∧
          alistGet fields "mode" = some (.str (pyLower s))) := by
  constructor
  · intro v hv ht hs
    unfold validate_evaluation
    simp only []
    rw [validateMode_err r v hv ht hs]
    rfl
  · intro s hv hs out h
    obtain ⟨r₁, r₂, r₃, r₄, qb, r₅, st, r₆, im, r₇,
      h1, h2, h3, h4, h5, h6, h7, rfl⟩ := validate_evaluation_ok_decomp r out h
    refine ⟨r₇, rfl, ?_⟩
    have h1' := validateMode_str r s hv hs
    rw [h1] at h1'
    injection h1' with h1'
    rw [tail_frame r₃ r₄ qb r₅ st r₆ im r₇ h4 h5 h6 h7 _
        (by decide) (by decide) (by decide) (by decide),
      ensureDict_frame _ _ _ h3 _ (by decide),
      ensureDict_frame _ _ _ h2 _ (by decide), h1']
    exact alistGet_alistSet_self _ _ _

/-- The validator output on the payload with mode TOEFL. -/
def outputC9 : Json := .obj
  [("mode", .str "toefl"), ("criterion_scores", .obj []),
   ("equivalent_scores", .obj []), ("question_breakdown", .arr []),
   ("strengths", .arr []), ("improvements", .arr []),
   ("specific_examples", .obj [("good", .arr []), ("needs_work", .arr [])])]

theorem validate_evaluation_mode_lowercased_witness :
    validate_evaluation (.obj [("mode", .num 123)]) =
      .error "Evaluation mode must be a string" ∧
    ∃ fields, outputC9 = .obj fields ∧
      alistGet fields "mode" = some (.str (pyLower "TOEFL")) :=
  ⟨(validate_evaluation_mode_lowercased [("mode", .num 123)]).1
      (.num 123) rfl rfl rfl,
   (validate_evaluation_mode_lowercased [("mode", .str "TOEFL")]).2
      "TOEFL" rfl (by decide) outputC9 rfl⟩

theorem se_stage_frame (r r₁ r₂ r₃ r₄ : List (String × Json)) (qb : List Json)
    (r₅ : List (String × Json)) (st : List Json)
    (r₆ : List (String × Json)) (im : List Json)
    (h1 : validateMode r = .ok r₁)
    (h2 : ensureDict r₁ "criterion_scores" = .ok r₂)
    (h3 : ensureDict r₂ "equivalent_scores" = .ok r₃)
    (h4 : ensureList r₃ "question_breakdown" = .ok (r₄, qb))
    (h5 : ensureList r₄ "strengths" = .ok (r₅, st))
    (h6 : ensureList r₅ "improvements" = .ok (r₆, im)) :
    alistGet (alistSet (alistSet (alistSet r₆ "question_breakdown"
        (.arr (qb.filter isDictEntry)))
      "strengths" (.arr (st.filter isNonBlankStr)))
      "improvements" (.arr (im.filter isNonBlankStr))) "specific_examples" =
      alistGet r "specific_examples" := by
  rw [alistGet_alistSet_ne _ _ _ _ (by decide),
    alistGet_alistSet_ne _ _ _ _ (by decide),
    alistGet_alistSet_ne _ _ _ _ (by decide),
    ensureList_frame _ _ _ _ h6 _ (by decide),
    ensureList_frame _ _ _ _ h5 _ (by decide),
    ensureList_frame _ _ _ _ h4 _ (by decide)]
  exact head_frame r r₁ r₂ r₃ h1 h2 h3 _ (by decide) (by decide) (by decide)

/-- C4 counterexample: a `specific_examples.good` supplied as the empty string
— present and not a sequence — does not raise: the `or []` default replaces
every falsy value, so validation succeeds. -/
theorem specific_examples_falsy_cx :
    validate_evaluation
        (.obj [("specific_examples", .obj [("good", .str "")])]) =
      .ok (.obj
        [("specific_examples",
          .obj [("good", .arr []), ("needs_work", .arr [])]),
         ("criterion_scores", .obj []), ("equivalent_scores", .obj []),
         ("question_breakdown", .arr []), ("strengths", .arr []),
         ("improvements", .arr [])]) ∧
    (Json.str "").isArr = false := ⟨rfl, rfl⟩

/-- C4 (amended): the `specific_examples` field defaults to an empty mapping when
absent or null and raises when present but not a mapping; its `good` and
`needs_work` sub-fields are replaced by an empty sequence when absent **or
falsy** (null, false, 0, empty string, empty sequence, empty mapping),
raise a ValidationError when present, truthy and not a sequence, and are
otherwise filtered to string entries with non-blank trimmed content. -/
theorem validate_evaluation_specific_examples (r : List (String × Json)) :
    (∀ v, alistGet r "specific_examples" = some v → v.isNull = false →
      v.isObj = false → ∃ msg, validate_evaluation (.obj r) = .error msg) ∧
    ((alistGet r "specific_examples" = none ∨
        alistGet r "specific_examples" = some .null) →
      ∀ out, validate_evaluation (.obj r) = .ok out →
        ∃ fields, out = .obj fields ∧
          alistGet fields "specific_examples" =
            some (.obj [("good", .arr []), ("needs_work", .arr [])])) ∧
    (∀ e, alistGet r "specific_examples" = some (.obj e) →
      ∀ key v, (key = "good" ∨ key = "needs_work") →
        alistGet e key = some v → v.truthy = true → v.isArr = false →
        ∃ msg, validate_evaluation (.obj r) = .error msg) ∧
    (∀ e, alistGet r "specific_examples" = some (.obj e) →
      ∀ out, validate_evaluation (.obj r) = .ok out →
        ∃ fields ex gl nl, out = .obj fields ∧
          alistGet fields "specific_examples" = some (.obj ex) ∧
          (alistGet e "good" = some (.arr gl) ∨
            ((alistGet e "good" = none ∨
              ∃ v, alistGet e "good" = some v ∧ v.truthy = false) ∧
              gl = [])) ∧
          (alistGet e "needs_work" = some (.arr nl) ∨
            ((alistGet e "needs_work" = none ∨
              ∃ v, alistGet e "needs_work" = some v ∧ v.truthy = false) ∧
              nl = [])) ∧
          alistGet ex "good" = some (.arr (gl.filter isNonBlankStr)) ∧
          alistGet ex "needs_work" =
            some (.arr (nl.filter isNonBlankStr))) := by
  refine ⟨?_, ?_, ?_, ?_⟩
  · intro v hv hn ho
    cases hres : validate_evaluation (.obj r) with
    | error msg => exact ⟨msg, rfl⟩
    | ok out =>
        obtain ⟨r₁, r₂, r₃, r₄, qb, r₅, st, r₆, im, r₇,
          h1, h2, h3, h4, h5, h6, h7, rfl⟩ :=
          validate_evaluation_ok_decomp r out hres
        rw [validateExamples_err_top _ v
          (by rw [se_stage_frame r r₁ r₂ r₃ r₄ qb r₅ st r₆ im
              h1 h2 h3 h4 h5 h6]; exact hv) hn ho] at h7
        exact Except.noConfusion h7
  · intro hd out h
    obtain ⟨r₁, r₂, r₃, r₄, qb, r₅, st, r₆, im, r₇,
      h1, h2, h3, h4, h5, h6, h7, rfl⟩ := validate_evaluation_ok_decomp r out h
    rw [validateExamples_absent _
      (by rw [se_stage_frame r r₁ r₂ r₃ r₄ qb r₅ st r₆ im
          h1 h2 h3 h4 h5 h6]; exact hd)] at h7
    injection h7 with h7
    refine ⟨r₇, rfl, ?_⟩
    rw [← h7]
    exact alistGet_alistSet_self _ _ _
  · intro e he key v hkey hv ht ha
    cases hres : validate_evaluation (.obj r) with
    | error msg => exact ⟨msg, rfl⟩
    | ok out =>
        obtain ⟨r₁, r₂, r₃, r₄, qb, r₅, st, r₆, im, r₇,
          h1, h2, h3, h4, h5, h6, h7, rfl⟩ :=
          validate_evaluation_ok_decomp r out hres
        rw [validateExamples_err_sub _ e key
          (by rw [se_stage_frame r r₁ r₂ r₃ r₄ qb r₅ st r₆ im
              h1 h2 h3 h4 h5 h6]; exact he) hkey v hv ht ha] at h7
        exact Except.noConfusion h7
  · intro e he out h
    obtain ⟨r₁, r₂, r₃, r₄, qb, r₅, st, r₆, im, r₇,
      h1, h2, h3, h4, h5, h6, h7, rfl⟩ := validate_evaluation_ok_decomp r out h
    obtain ⟨gl, nl, hsg, hsn, hr₇⟩ := validateExamples_obj_ok _ e r₇
      (by rw [se_stage_frame r r₁ r₂ r₃ r₄ qb r₅ st r₆ im
          h1 h2 h3 h4 h5 h6]; exact he) h7
    refine ⟨r₇, alistSet (alistSet e "good" (.arr (gl.filter isNonBlankStr)))
      "needs_work" (.arr (nl.filter isNonBlankStr)), gl, nl, rfl, ?_,
      hsg, hsn, ?_, ?_⟩
    · rw [hr₇]
      exact alistGet_alistSet_self _ _ _
    · rw [alistGet_alistSet_ne _ _ _ _ (by decide)]
      exact alistGet_alistSet_self _ _ _
    · exact alistGet_alistSet_self _ _ _

/-- The validator output on the C4 witness payload. -/
def outputC4 : Json := .obj
  [("specific_examples",
    .obj [("good", .arr [.str "ok"]), ("needs_work", .arr [])]),
   ("criterion_scores", .obj []), ("equivalent_scores", .obj []),
   ("question_breakdown", .arr []), ("strengths", .arr []),
   ("improvements", .arr [])]

theorem validate_evaluation_specific_examples_witness :
    (∃ msg, validate_evaluation
      (.obj [("specific_examples", .str "oops")]) = .error msg) ∧
    (∃ fields ex gl nl, outputC4 = .obj fields ∧
      alistGet fields "specific_examples" = some (.obj ex) ∧
      (alistGet [("good", Json.arr [.str "ok", .num 3]),
          ("needs_work", Json.str "")] "good" = some (.arr gl) ∨
        ((alistGet [("good", Json.arr [.str "ok", .num 3]),
            ("needs_work", Json.str "")] "good" = none ∨
          ∃ v, alistGet [("good", Json.arr [.str "ok", .num 3]),
            ("needs_work", Json.str "")] "good" = some v ∧
            v.truthy = false) ∧ gl = [])) ∧
      (alistGet [("good", Json.arr [.str "ok", .num 3]),
          ("needs_work", Json.str "")] "needs_work" = some (.arr nl) ∨
        ((alistGet [("good", Json.arr [.str "ok", .num 3]),
            ("needs_work", Json.str "")] "needs_work" = none ∨
          ∃ v, alistGet [("good", Json.arr [.str "ok", .num 3]),
            ("needs_work", Json.str "")] "needs_work" = some v ∧
            v.truthy = false) ∧ nl = [])) ∧
      alistGet ex "good" = some (.arr (gl.filter isNonBlankStr)) ∧
      alistGet ex "needs_work" = some (.arr (nl.filter isNonBlankStr))) :=
  ⟨(validate_evaluation_specific_examples
      [("specific_examples", .str "oops")]).1 (.str "oops") rfl rfl rfl,
   (validate_evaluation_specific_examples
      [("specific_examples", .obj [("good", .arr [.str "ok", .num 3]),
        ("needs_work", .str "")])]).2.2.2
      [("good", .arr [.str "ok", .num 3]), ("needs_work", .str "")]
      rfl outputC4 rfl⟩

/-!
Configuration manager lemmas
-/

theorem getD_mem {α : Type} (l : List α) (i : Nat) (d : α)
    (h : i < l.length) : l.getD i d ∈ l := by
  rw [List.getD_eq_getElem?_getD, List.getElem?_eq_getElem h]
  simp only [Option.getD_some]
  exact List.getElem_mem h

theorem pyIntOfNum_isIntFloat (v : Json) (h : v.isIntFloat = true) :
    (pyIntOfNum v).isIntFloat = true := by
  cases v <;> simp_all [pyIntOfNum, Json.isIntFloat]

theorem load_config_first_access (m : ConfigManager) (mode : String)
    (cfg : Json) (hc : alistGet m.cache (pyLower mode) = none)
    (hf : alistGet m.files (pyLower mode) = some cfg) :
    _load_config m mode =
      .ok (cfg, { m with cache := alistSet m.cache (pyLower mode) cfg }) := by
  unfold _load_config
  simp only [hc, hf]

theorem load_config_memoized (m : ConfigManager) (mode : String)
    (d : Json) (m' : ConfigManager) (h : _load_config m mode = .ok (d, m')) :
    _load_config m' mode = .ok (d, m') := by
  unfold _load_config at h ⊢
  cases hc : alistGet m.cache (pyLower mode) with
  | some data =>
      simp only [hc] at h
      injection h with h
      have hd : data = d := congrArg Prod.fst h
      have hm : m = m' := congrArg Prod.snd h
      subst hd
      subst hm
      simp only [hc]
  | none =>
      simp only [hc] at h
      cases hf : alistGet m.files (pyLower mode) with
      | none => simp only [hf] at h; exact Except.noConfusion h
      | some data =>
          simp only [hf] at h
          injection h with h
          have hd : data = d := congrArg Prod.fst h
          have hm : { m with cache := alistSet m.cache (pyLower mode) data } = m' :=
            congrArg Prod.snd h
          subst hd
          subst hm
          simp only [alistGet_alistSet_self]

theorem load_config_frame (m : ConfigManager) (mode : String)
    (d : Json) (m' : ConfigManager) (h : _load_config m mode = .ok (d, m')) :
    m'.files = m.files ∧
    ∀ k, k ≠ pyLower mode → alistGet m'.cache k = alistGet m.cache k := by
  unfold _load_config at h
  cases hc : alistGet m.cache (pyLower mode) with
  | some data =>
      simp only [hc] at h
      injection h with h
      have hm : m = m' := congrArg Prod.snd h
      subst hm
      exact ⟨rfl, fun k _ => rfl⟩
  | none =>
      simp only [hc] at h
      cases hf : alistGet m.files (pyLower mode) with
      | none => simp only [hf] at h; exact Except.noConfusion h
      | some data =>
          simp only [hf] at h
          injection h with h
          have hm : { m with cache := alistSet m.cache (pyLower mode) data } = m' :=
            congrArg Prod.snd h
          subst hm
          exact ⟨rfl, fun k hk => alistGet_alistSet_ne _ _ _ _ hk⟩

theorem get_evaluation_config_ok (m : ConfigManager) (mode : String)
    (res : List (String × Json)) (m' : ConfigManager)
    (h : get_evaluation_config m mode = .ok (res, m')) :
    ∃ cfg e, _load_config m mode = .ok (.obj cfg, m') ∧
      alistGet cfg "evaluation" = some (.obj e) ∧
      (∀ fc ∈ requiredEvalFields,
        fc.2 ((alistGet e fc.1).getD .null) = true) ∧
      (∀ fc ∈ requiredEvalFields,
        ∃ v, alistGet res fc.1 = some v ∧ fc.2 v = true) := by
  unfold get_evaluation_config at h
  cases hl : _load_config m mode with
  | error err => rw [hl, ebind_err] at h; exact Except.noConfusion h
  | ok p =>
  obtain ⟨config, m₁⟩ := p
  rw [hl, ebind_ok] at h
  simp only [] at h
  cases config with
  | null => simp only [configGet, ebind_err] at h; exact Except.noConfusion h
  | bool b => simp only [configGet, ebind_err] at h; exact Except.noConfusion h
  | num n => simp only [configGet, ebind_err] at h; exact Except.noConfusion h
  | str s => simp only [configGet, ebind_err] at h; exact Except.noConfusion h
  | arr l => simp only [configGet, ebind_err] at h; exact Except.noConfusion h
  | obj cfg =>
  simp only [configGet, ebind_ok] at h
  cases he : alistGet cfg "evaluation" with
  | none =>
      simp only [he, ebind_err] at h
      exact Except.noConfusion h
  | some ev =>
  simp only [he] at h
  cases ev with
  | null => simp only [ebind_err] at h; exact Except.noConfusion h
  | bool b => simp only [ebind_err] at h; exact Except.noConfusion h
  | num n => simp only [ebind_err] at h; exact Except.noConfusion h
  | str s => simp only [ebind_err] at h; exact Except.noConfusion h
  | arr l => simp only [ebind_err] at h; exact Except.noConfusion h
  | obj e =>
  simp only [ebind_ok] at h
  simp only [requiredEvalFields, List.foldlM] at h
  by_cases h1 : Json.isStr ((alistGet e "system_prompt").getD .null) = true
  case neg => rw [if_neg h1, ebind_err] at h; exact Except.noConfusion h
  rw [if_pos h1, ebind_ok] at h
  by_cases h2 : Json.isStr ((alistGet e "overall_scale").getD .null) = true
  case neg => rw [if_neg h2, ebind_err] at h; exact Except.noConfusion h
  rw [if_pos h2, ebind_ok] at h
  by_cases h3 : Json.isStr ((alistGet e "criterion_template").getD .null) = true
  case neg => rw [if_neg h3, ebind_err] at h; exact Except.noConfusion h
  rw [if_pos h3, ebind_ok] at h
  by_cases h4 : Json.isStr ((alistGet e "equivalent_template").getD .null) = true
  case neg => rw [if_neg h4, ebind_err] at h; exact Except.noConfusion h
  rw [if_pos h4, ebind_ok] at h
  by_cases h5 : Json.isIntFloat ((alistGet e "question_max").getD .null) = true
  case neg => rw [if_neg h5, ebind_err] at h; exact Except.noConfusion h
  rw [if_pos h5, ebind_ok] at h
  by_cases h6 : Json.isStr ((alistGet e "examples").getD .null) = true
  case neg => rw [if_neg h6, ebind_err] at h; exact Except.noConfusion h
  rw [if_pos h6, ebind_ok] at h
  by_cases h7 : Json.isStr ((alistGet e "guidance").getD .null) = true
  case neg => rw [if_neg h7, ebind_err] at h; exact Except.noConfusion h
  rw [if_pos h7, ebind_ok] at h
  simp only [pure, Except.pure, ebind_ok] at h
  cases hex : alistGet e "extra_fields" with
  | none =>
      simp only [hex, Option.getD] at h
      injection h with h
      rw [Prod.mk.injEq] at h
      obtain ⟨hres, hm⟩ := h
      subst hm
      subst hres
      refine ⟨cfg, e, rfl, he, ?_, ?_⟩
      · intro fc hfc
        simp only [requiredEvalFields, List.mem_cons,
          List.not_mem_nil, or_false] at hfc
        rcases hfc with rfl | rfl | rfl | rfl | rfl | rfl | rfl <;>
          assumption
      · intro fc hfc
        simp only [requiredEvalFields, List.mem_cons,
          List.not_mem_nil, or_false] at hfc
        rcases hfc with rfl | rfl | rfl | rfl | rfl | rfl | rfl
        · exact ⟨(alistGet e "system_prompt").getD .null,
            by simp [alistSet, alistGet, Option.getD], h1⟩
        · exact ⟨(alistGet e "overall_scale").getD .null,
            by simp [alistSet, alistGet, Option.getD], h2⟩
        · exact ⟨(alistGet e "criterion_template").getD .null,
            by simp [alistSet, alistGet, Option.getD], h3⟩
        · exact ⟨(alistGet e "equivalent_template").getD .null,
            by simp [alistSet, alistGet, Option.getD], h4⟩
        · exact ⟨pyIntOfNum ((alistGet e "question_max").getD .null),
            by simp [alistSet, alistGet, Option.getD], pyIntOfNum_isIntFloat _ h5⟩
        · exact ⟨(alistGet e "examples").getD .null,
            by simp [alistSet, alistGet, Option.getD], h6⟩
        · exact ⟨(alistGet e "guidance").getD .null,
            by simp [alistSet, alistGet, Option.getD], h7⟩
  | some exv =>
      simp only [hex, Option.getD] at h
      cases exv with
      | str s =>
          injection h with h
          rw [Prod.mk.injEq] at h
          obtain ⟨hres, hm⟩ := h
          subst hm
          subst hres
          refine ⟨cfg, e, rfl, he, ?_, ?_⟩
          · intro fc hfc
            simp only [requiredEvalFields, List.mem_cons,
              List.not_mem_nil, or_false] at hfc
            rcases hfc with rfl | rfl | rfl | rfl | rfl | rfl | rfl <;>
              assumption
          · intro fc hfc
            simp only [requiredEvalFields, List.mem_cons,
              List.not_mem_nil, or_false] at hfc
            rcases hfc with rfl | rfl | rfl | rfl | rfl | rfl | rfl
            · exact ⟨(alistGet e "system_prompt").getD .null,
                by simp [alistSet, alistGet, Option.getD], h1⟩
            · exact ⟨(alistGet e "overall_scale").getD .null,
                by simp [alistSet, alistGet, Option.getD], h2⟩
            · exact ⟨(alistGet e "criterion_template").getD .null,
                by simp [alistSet, alistGet, Option.getD], h3⟩
            · exact ⟨(alistGet e "equivalent_template").getD .null,
                by simp [alistSet, alistGet, Option.getD], h4⟩
            · exact ⟨pyIntOfNum ((alistGet e "question_max").getD .null),
                by simp [alistSet, alistGet, Option.getD], pyIntOfNum_isIntFloat _ h5⟩
            · exact ⟨(alistGet e "examples").getD .null,
                by simp [alistSet, alistGet, Option.getD], h6⟩
            · exact ⟨(alistGet e "guidance").getD .null,
                by simp [alistSet, alistGet, Option.getD], h7⟩
      | null => exact Except.noConfusion h
      | bool b => exact Except.noConfusion h
      | num n => exact Except.noConfusion h
      | arr l => exact Except.noConfusion h
      | obj o => exact Except.noConfusion h

/-- C5: mode loading is lazy per mode and memoized — a repeat access returns
the cached document and leaves the state unchanged, and a load touches no
cache entry of any other mode — and evaluation metadata is fail-fast: a first
access to a mode whose backing definition has a required evaluation field
absent or of the wrong structural type raises a ConfigError, and a
successful access never returns a partially-valid record (every required
field is present with its required type). -/
theorem config_loading_lazy_memoized_fail_fast
    (m : ConfigManager) (mode : String) :
    (∀ d m', _load_config m mode = .ok (d, m') →
      _load_config m' mode = .ok (d, m') ∧ m'.files = m.files ∧
      ∀ k, k ≠ pyLower mode → alistGet m'.cache k = alistGet m.cache k) ∧
    (∀ cfg e, alistGet m.cache (pyLower mode) = none →
      alistGet m.files (pyLower mode) = some (.obj cfg) →
      alistGet cfg "evaluation" = some (.obj e) →
      ∀ fc ∈ requiredEvalFields,
        fc.2 ((alistGet e fc.1).getD .null) = false →
        ∃ err, get_evaluation_config m mode = .error err) ∧
    (∀ res m', get_evaluation_config m mode = .ok (res, m') →
      ∀ fc ∈ requiredEvalFields,
        ∃ v, alistGet res fc.1 = some v ∧ fc.2 v = true) := by
  refine ⟨?_, ?_, ?_⟩
  · intro d m' h
    exact ⟨load_config_memoized m mode d m' h,
      (load_config_frame m mode d m' h).1,
      (load_config_frame m mode d m' h).2⟩
  · intro cfg e hc hf he fc hfc hbad
    cases hres : get_evaluation_config m mode with
    | error err => exact ⟨err, rfl⟩
    | ok p =>
        obtain ⟨res, m'⟩ := p
        obtain ⟨cfg', e', hl', he', hsrc, _⟩ :=
          get_evaluation_config_ok m mode res m' hres
        rw [load_config_first_access m mode (.obj cfg) hc hf] at hl'
        injection hl' with hl'
        have hcfg : Json.obj cfg = Json.obj cfg' := congrArg Prod.fst hl'
        injection hcfg with hcfg
        subst hcfg
        rw [he] at he'
        injection he' with he'
        injection he' with he'
        subst he'
        rw [hsrc fc hfc] at hbad
        exact Bool.noConfusion hbad
  · intro res m' h fc hfc
    obtain ⟨_, _, _, _, _, hout⟩ := get_evaluation_config_ok m mode res m' h
    exact hout fc hfc

/-- The evaluation record of the valid mode in the C5 witness manager. -/
def evalRecordC5 : List (String × Json) :=
  [("system_prompt", .str "judge"), ("overall_scale", .str "0-30"),
   ("criterion_template", .str "CT"), ("equivalent_template", .str "ET"),
   ("question_max", .num 4), ("examples", .str "EX"), ("guidance", .str "G")]

/-- A two-mode configuration manager: one valid mode and one whose
`system_prompt` evaluation field has the wrong type. -/
def mgrC5 : ConfigManager :=
  { files := [("toefl", .obj [("evaluation", .obj evalRecordC5)]),
              ("broken", .obj [("evaluation", .obj [("system_prompt", .num 1)])])],
    cache := [] }

/-- The manager state after the first load of `toefl` in the C5 witness. -/
def mgrC5cached : ConfigManager :=
  { files := mgrC5.files,
    cache := [("toefl", .obj [("evaluation", .obj evalRecordC5)])] }

/-- The evaluation config returned for `toefl` in the C5 witness. -/
def evalResultC5 : List (String × Json) :=
  [("system_prompt", .str "judge"), ("overall_scale", .str "0-30"),
   ("criterion_template", .str "CT"), ("equivalent_template", .str "ET"),
   ("question_max", .num 4), ("examples", .str "EX"), ("guidance", .str "G"),
   ("extra_fields", .str "")]

theorem config_loading_lazy_memoized_fail_fast_witness :
    (_load_config mgrC5cached "toefl" =
        .ok (.obj [("evaluation", .obj evalRecordC5)], mgrC5cached) ∧
      mgrC5cached.files = mgrC5.files ∧
      ∀ k, k ≠ pyLower "toefl" →
        alistGet mgrC5cached.cache k = alistGet mgrC5.cache k) ∧
    (∃ err, get_evaluation_config mgrC5 "broken" = .error err) ∧
    (∀ fc ∈ requiredEvalFields,
      ∃ v, alistGet evalResultC5 fc.1 = some v ∧ fc.2 v = true) :=
  ⟨(config_loading_lazy_memoized_fail_fast mgrC5 "toefl").1
      (.obj [("evaluation", .obj evalRecordC5)]) mgrC5cached rfl,
   (config_loading_lazy_memoized_fail_fast mgrC5 "broken").2.1
      [("evaluation", .obj [("system_prompt", .num 1)])]
      [("system_prompt", .num 1)] rfl rfl rfl
      ("system_prompt", Json.isStr) (List.Mem.head _) rfl,
   (config_loading_lazy_memoized_fail_fast mgrC5 "toefl").2.2
      evalResultC5 mgrC5cached rfl⟩

/-- C8: whatever the random draws, a successful `get_random_question`
returns a prompt that is a member of the prompt list of one of the question
groups of the mode, paired with the part label of that group; it fails with a
ConfigError when the mode has no question groups or the selected group has
no prompts; and the selection is a two-stage draw — the group is chosen by
the first draw, the prompt by the second draw within that group. -/
theorem get_random_question_spec (m : ConfigManager) (mode : String)
    (gsel psel : Nat) :
    (∀ part prompt m',
      get_random_question m mode gsel psel = .ok ((part, prompt), m') →
      ∃ cfg qs gf prompts,
        _load_config m mode = .ok (.obj cfg, m') ∧
        alistGet cfg "questions" = some (.arr qs) ∧
        qs.getD (gsel % qs.length) .null = .obj gf ∧
        Json.obj gf ∈ qs ∧
        alistGet gf "prompts" = some (.arr prompts) ∧
        prompt = prompts.getD (psel % prompts.length) .null ∧
        prompt ∈ prompts ∧
        part = (alistGet gf "part").getD (.str "")) ∧
    (∀ cfg m₁, _load_config m mode = .ok (.obj cfg, m₁) →
      (alistGet cfg "questions" = none ∨
        (∃ v, alistGet cfg "questions" = some v ∧ v.isArr = false) ∨
        alistGet cfg "questions" = some (.arr [])) →
      get_random_question m mode gsel psel = .error (.noQuestions mode)) ∧
    (∀ cfg m₁ qs gf, _load_config m mode = .ok (.obj cfg, m₁) →
      alistGet cfg "questions" = some (.arr qs) → qs ≠ [] →
      qs.getD (gsel % qs.length) .null = .obj gf →
      (alistGet gf "prompts" = none ∨
        (∃ v, alistGet gf "prompts" = some v ∧ v.isArr = false) ∨
        alistGet gf "prompts" = some (.arr [])) →
      get_random_question m mode gsel psel =
        .error (.noPrompts mode (.obj gf))) := by
  refine ⟨?_, ?_, ?_⟩
  · intro part prompt m' h
    unfold get_random_question at h
    cases hl : _load_config m mode with
    | error err => rw [hl, ebind_err] at h; exact Except.noConfusion h
    | ok p =>
    obtain ⟨config, m₁⟩ := p
    rw [hl, ebind_ok] at h
    simp only [] at h
    cases config with
    | null => simp only [configGet, ebind_err] at h; exact Except.noConfusion h
    | bool b => simp only [configGet, ebind_err] at h; exact Except.noConfusion h
    | num n => simp only [configGet, ebind_err] at h; exact Except.noConfusion h
    | str s => simp only [configGet, ebind_err] at h; exact Except.noConfusion h
    | arr l => simp only [configGet, ebind_err] at h; exact Except.noConfusion h
    | obj cfg =>
    simp only [configGet, ebind_ok] at h
    cases hq : alistGet cfg "questions" with
    | none => simp only [hq, ebind_err] at h; exact Except.noConfusion h
    | some v =>
    simp only [hq] at h
    cases v with
    | null => simp only [ebind_err] at h; exact Except.noConfusion h
    | bool b => simp only [ebind_err] at h; exact Except.noConfusion h
    | num n => simp only [ebind_err] at h; exact Except.noConfusion h
    | str s => simp only [ebind_err] at h; exact Except.noConfusion h
    | obj o => simp only [ebind_err] at h; exact Except.noConfusion h
    | arr qs =>
    simp only [] at h
    by_cases hqe : qs.isEmpty = true
    · rw [if_pos hqe, ebind_err] at h
      exact Except.noConfusion h
    rw [if_neg hqe, ebind_ok] at h
    have hqlen : 0 < qs.length := by
      cases qs with
      | nil => exact absurd rfl hqe
      | cons a l => simp
    cases hsel : qs.getD (gsel % qs.length) Json.null with
    | null => rw [hsel, ebind_err] at h; exact Except.noConfusion h
    | bool b => rw [hsel, ebind_err] at h; exact Except.noConfusion h
    | num n => rw [hsel, ebind_err] at h; exact Except.noConfusion h
    | str s => rw [hsel, ebind_err] at h; exact Except.noConfusion h
    | arr l => rw [hsel, ebind_err] at h; exact Except.noConfusion h
    | obj gf =>
    rw [hsel, ebind_ok] at h
    cases hp : alistGet gf "prompts" with
    | none => simp only [hp, ebind_err] at h; exact Except.noConfusion h
    | some w =>
    simp only [hp] at h
    cases w with
    | null => simp only [ebind_err] at h; exact Except.noConfusion h
    | bool b => simp only [ebind_err] at h; exact Except.noConfusion h
    | num n => simp only [ebind_err] at h; exact Except.noConfusion h
    | str s => simp only [ebind_err] at h; exact Except.noConfusion h
    | obj o => simp only [ebind_err] at h; exact Except.noConfusion h
    | arr prompts =>
    simp only [] at h
    by_cases hpe : prompts.isEmpty = true
    · rw [if_pos hpe, ebind_err] at h
      exact Except.noConfusion h
    rw [if_neg hpe, ebind_ok] at h
    have hplen : 0 < prompts.length := by
      cases prompts with
      | nil => exact absurd rfl hpe
      | cons a l => simp
    simp only [pure, Except.pure] at h
    injection h with h
    rw [Prod.mk.injEq] at h
    obtain ⟨hpair, hm⟩ := h
    rw [Prod.mk.injEq] at hpair
    obtain ⟨hpart, hprompt⟩ := hpair
    subst hm
    refine ⟨cfg, qs, gf, prompts, rfl, hq, hsel, ?_, hp,
      hprompt.symm, ?_, hpart.symm⟩
    · rw [← hsel]
      exact getD_mem qs _ _ (Nat.mod_lt _ hqlen)
    · rw [← hprompt]
      exact getD_mem prompts _ _ (Nat.mod_lt _ hplen)
  · intro cfg m₁ hl hbad
    unfold get_random_question
    rw [hl, ebind_ok]
    simp only [configGet, ebind_ok]
    rcases hbad with hq | ⟨v, hq, hv⟩ | hq
    · rw [hq]
      rfl
    · rw [hq]
      cases v with
      | arr l => simp [Json.isArr] at hv
      | null => rfl
      | bool b => rfl
      | num n => rfl
      | str s => rfl
      | obj o => rfl
    · rw [hq]
      rfl
  · intro cfg m₁ qs gf hl hq hne hsel hbad
    unfold get_random_question
    rw [hl, ebind_ok]
    simp only [configGet, ebind_ok]
    rw [hq]
    simp only []
    rw [if_neg (by simp [hne]), ebind_ok, hsel]
    simp only [ebind_ok]
    rcases hbad with hp | ⟨v, hp, hv⟩ | hp
    · rw [hp]
      rfl
    · rw [hp]
      cases v with
      | arr l => simp [Json.isArr] at hv
      | null => rfl
      | bool b => rfl
      | num n => rfl
      | str s => rfl
      | obj o => rfl
    · rw [hp]
      rfl

/-- A three-mode manager for the C8 witness: a two-group question bank, a
mode with no question groups, and a mode whose only group has no prompts. -/
def mgrC8 : ConfigManager :=
  { files := [("ielts",
      .obj [("questions", .arr
        [.obj [("part", .str "Part 1"),
               ("prompts", .arr [.str "Q1", .str "Q2"])],
         .obj [("part", .str "Part 2"),
               ("prompts", .arr [.str "Q3"])]])]),
      ("empty", .obj [("questions", .arr [])]),
      ("nopr", .obj [("questions",
        .arr [.obj [("part", .str "P"), ("prompts", .arr [])]])])],
    cache := [] }

/-- The manager state after the load of `ielts` in the C8 witness. -/
def mgrC8cached : ConfigManager :=
  { files := mgrC8.files,
    cache := [("ielts",
      .obj [("questions", .arr
        [.obj [("part", .str "Part 1"),
               ("prompts", .arr [.str "Q1", .str "Q2"])],
         .obj [("part", .str "Part 2"),
               ("prompts", .arr [.str "Q3"])]])])] }

theorem get_random_question_spec_witness :
    (∃ cfg qs gf prompts,
      _load_config mgrC8 "ielts" = .ok (.obj cfg, mgrC8cached) ∧
      alistGet cfg "questions" = some (.arr qs) ∧
      qs.getD (1 % qs.length) .null = .obj gf ∧
      Json.obj gf ∈ qs ∧
      alistGet gf "prompts" = some (.arr prompts) ∧
      (Json.str "Q3") = prompts.getD (0 % prompts.length) .null ∧
      (Json.str "Q3") ∈ prompts ∧
      (Json.str "Part 2") = (alistGet gf "part").getD (.str "")) ∧
    get_random_question mgrC8 "empty" 5 7 =
      .error (.noQuestions "empty") ∧
    get_random_question mgrC8 "nopr" 0 0 =
      .error (.noPrompts "nopr"
        (.obj [("part", .str "P"), ("prompts", .arr [])])) :=
  ⟨(get_random_question_spec mgrC8 "ielts" 1 0).1
      (.str "Part 2") (.str "Q3") mgrC8cached rfl,
   (get_random_question_spec mgrC8 "empty" 5 7).2.1
      [("questions", .arr [])]
      { files := mgrC8.files, cache := [("empty", .obj [("questions", .arr [])])] }
      rfl (.inr (.inr rfl)),
   (get_random_question_spec mgrC8 "nopr" 0 0).2.2
      [("questions", .arr [.obj [("part", .str "P"), ("prompts", .arr [])]])]
      { files := mgrC8.files,
        cache := [("nopr", .obj [("questions",
          .arr [.obj [("part", .str "P"), ("prompts", .arr [])]])])] }
      [.obj [("part", .str "P"), ("prompts", .arr [])]]
      [("part", .str "P"), ("prompts", .arr [])]
      rfl rfl (List.cons_ne_nil _ _) rfl (.inr (.inr rfl))⟩
